import Mathlib

/-!
Verification development for the SIRI next-departures integration
(`custom_components/siri-next-departures/utils.py`).

The Python source is shallowly embedded below: pure string helpers become
Lean functions on `String`/`List Char`, the SAX content handlers become
explicit state machines folded over an event list, Python dictionaries
become insertion-ordered association lists with replace-on-insert
semantics, and the departure-fetch routine becomes a function over an
explicit fetch outcome, with Python runtime exceptions modelled by
`Except Unit` (the source wraps the whole body in a blanket
`except Exception` that returns `None`).
-/

set_option autoImplicit false

namespace Siri

/-! ## Python string primitives -/

/-- Characters treated as whitespace by Python's `str.strip()` / `str.split()`
(ASCII subset, which is all that the embedded data can contain). -/
def isPySpace (c : Char) : Bool :=
  c = ' ' || c = '\t' || c = '\n' || c = '\x0d' || c = '\x0b' || c = '\x0c'

/-- Python `str.strip()`: drop leading and trailing whitespace. -/
def pyStrip (s : String) : String :=
  ⟨((s.data.dropWhile isPySpace).reverse.dropWhile isPySpace).reverse⟩

/-- Split a character list at every whitespace character (tokens may be
empty, as in splitting on each single separator). -/
def splitAtWS (l : List Char) : List (List Char) :=
  l.foldr
    (fun c acc =>
      if isPySpace c then [] :: acc
      else
        match acc with
        | [] => [[c]]
        | w :: ws => (c :: w) :: ws)
    []

/-- Python `s.strip().split()` with no separator: whitespace-delimited
tokens, no empty tokens (the source additionally filters empty tokens,
which is a no-op). -/
def pySplitWS (s : String) : List String :=
  ((splitAtWS s.data).map (fun w => (⟨w⟩ : String))).filter (fun t => t ≠ "")

/-- Python `str.lower()` on a single character, restricted to ASCII
(the only characters that reach it in this code base). -/
def pyLowerChar (c : Char) : Char :=
  if 65 ≤ c.toNat ∧ c.toNat ≤ 90 then
    Char.ofNat (c.toNat + 32)
  else
    c

/-- Python `str.lower()`. -/
def pyLower (s : String) : String :=
  ⟨s.data.map pyLowerChar⟩

/-- Python `s.replace(t, "")` for a single-character `t`: remove every
occurrence of that character. -/
def removeChar (t : Char) (s : String) : String :=
  ⟨s.data.filter (fun c => c ≠ t)⟩

/-- Lookup in a SAX attribute list with a default, mirroring
`attrs.get(key, default)`. -/
def attrGet (attrs : List (String × String)) (key dflt : String) : String :=
  match attrs.lookup key with
  | some v => v
  | none => dflt

/-! ## Python dictionaries

Insertion-ordered association lists with replace-on-insert semantics:
`dictInsert` overwrites the value in place when the key exists and appends
otherwise, exactly like assignment into a Python `dict`. -/

variable {α : Type}

/-- `d[k] = v` on a Python dict. -/
def dictInsert (d : List (String × α)) (k : String) (v : α) : List (String × α) :=
  match d with
  | [] => [(k, v)]
  | (k', v') :: rest =>
      if k' = k then (k', v) :: rest
      else (k', v') :: dictInsert rest k v

/-- `d.get(k)` on a Python dict (`none` when absent). -/
def dictGet (d : List (String × α)) (k : String) : Option α :=
  match d with
  | [] => none
  | (k', v') :: rest => if k' = k then some v' else dictGet rest k

/-- The key list of a Python dict (insertion order). -/
def dictKeys (d : List (String × α)) : List String :=
  d.map Prod.fst

theorem dictGet_insert_self (d : List (String × α)) (k : String) (v : α) :
    dictGet (dictInsert d k v) k = some v := by
  induction d with
  | nil => simp [dictInsert, dictGet]
  | cons hd tl ih =>
      obtain ⟨k', v'⟩ := hd
      by_cases h : k' = k
      · simp [dictInsert, dictGet, h]
      · simp only [dictInsert, h, if_false, dictGet]
        exact ih

theorem dictGet_insert_ne (d : List (String × α)) (k k' : String) (v : α)
    (h : k' ≠ k) : dictGet (dictInsert d k v) k' = dictGet d k' := by
  induction d with
  | nil =>
      simp only [dictInsert, dictGet]
      rw [if_neg (fun hh => h hh.symm)]
  | cons hd tl ih =>
      obtain ⟨k₀, v₀⟩ := hd
      by_cases h0 : k₀ = k
      · subst h0
        simp only [dictInsert, if_pos rfl, dictGet]
        rw [if_neg (fun hh => h hh.symm), if_neg (fun hh => h hh.symm)]
      · simp only [dictInsert, h0, if_false, dictGet]
        by_cases h1 : k₀ = k'
        · rw [if_pos h1, if_pos h1]
        · rw [if_neg h1, if_neg h1]
          exact ih

theorem dictKeys_insert_mem (d : List (String × α)) (k : String) (v : α)
    (h : k ∈ dictKeys d) : dictKeys (dictInsert d k v) = dictKeys d := by
  induction d with
  | nil => simp [dictKeys] at h
  | cons hd tl ih =>
      obtain ⟨k', v'⟩ := hd
      by_cases h0 : k' = k
      · simp [dictInsert, dictKeys, h0]
      · simp only [dictKeys, List.map_cons, List.mem_cons] at h
        rcases h with h | h
        · exact absurd h.symm h0
        · have := ih (by simpa [dictKeys] using h)
          simp only [dictInsert, h0, if_false, dictKeys, List.map_cons]
          rw [show List.map (Prod.fst (α := String) (β := α)) (dictInsert tl k v)
                = dictKeys (dictInsert tl k v) from rfl, this]
          rfl

theorem dictGet_mem_keys (d : List (String × α)) (k : String) (v : α)
    (h : dictGet d k = some v) : k ∈ dictKeys d := by
  induction d with
  | nil => simp [dictGet] at h
  | cons hd tl ih =>
      obtain ⟨k', v'⟩ := hd
      by_cases h0 : k' = k
      · simp [dictKeys, h0]
      · simp only [dictGet, h0, if_false] at h
        simp only [dictKeys, List.map_cons, List.mem_cons]
        exact Or.inr (by simpa [dictKeys] using ih h)

theorem dictGet_of_mem_keys (d : List (String × α)) (k : String)
    (h : k ∈ dictKeys d) : ∃ v, dictGet d k = some v := by
  induction d with
  | nil => simp [dictKeys] at h
  | cons hd tl ih =>
      obtain ⟨k', v'⟩ := hd
      by_cases h0 : k' = k
      · exact ⟨v', by simp [dictGet, h0]⟩
      · simp only [dictKeys, List.map_cons, List.mem_cons] at h
        rcases h with h | h
        · exact absurd h.symm h0
        · simpa [dictGet, h0] using ih h

/-! ## The `unidecode` transliteration model

`normalizeString` (utils.py lines 31-41) calls `unidecode.unidecode`.
Modelled here: the real library passes ASCII characters through unchanged
and maps every non-ASCII code point to an ASCII replacement string (the
empty string when no transliteration is known).  The table below carries
the Latin-accent entries exercised by this code base; all remaining
non-ASCII characters take the library's empty-string fallback. -/

def uniTable : List (Char × String) :=
  [('à', "a"), ('â', "a"), ('ä', "a"), ('á', "a"), ('ã', "a"),
   ('ç', "c"), ('é', "e"), ('è', "e"), ('ê', "e"), ('ë', "e"),
   ('î', "i"), ('ï', "i"), ('í', "i"), ('ô', "o"), ('ö', "o"),
   ('ó', "o"), ('õ', "o"), ('ù', "u"), ('û', "u"), ('ü', "u"),
   ('ú', "u"), ('ÿ', "y"), ('ñ', "n"),
   ('À', "A"), ('Â', "A"), ('Ä', "A"), ('Ç', "C"), ('É', "E"),
   ('È', "E"), ('Ê', "E"), ('Ë', "E"), ('Î', "I"), ('Ï', "I"),
   ('Ô', "O"), ('Ö', "O"), ('Ù', "U"), ('Û', "U"), ('Ü', "U"), ('Ñ', "N")]

/-- Lookup in the transliteration table (same first-match semantics as a
Python dict built from it). -/
def charLookup (l : List (Char × String)) (c : Char) : Option String :=
  match l with
  | [] => none
  | (c', s') :: rest => if c' = c then some s' else charLookup rest c

def unidecodeChar (c : Char) : List Char :=
  if c.toNat ≤ 127 then [c]
  else
    match charLookup uniTable c with
    | some s => s.data
    | none => []

/-- `unidecode.unidecode` on a string. -/
def unidecode (s : String) : String :=
  ⟨(s.data.map unidecodeChar).flatten⟩

/-! ## `normalizeString` (utils.py lines 31-41) -/

/-- `normalizeString`: transliterate, lowercase, remove spaces and hyphens;
empty input yields the empty string. -/
def normalizeString (input_str : String) : String :=
  if input_str = "" then ""
  else removeChar '-' (removeChar ' ' (pyLower (unidecode input_str)))

example : normalizeString "Gare Centrale" = "garecentrale" := by decide
example : normalizeString "Théâtre - Opéra" = "theatreopera" := by decide

/-! ### Facts about the normalizer -/

theorem toNat_ofNat_valid (n : Nat) (h : n.isValidChar) : (Char.ofNat n).toNat = n := by
  simp only [Char.ofNat, dif_pos h, Char.ofNatAux, Char.toNat]
  rfl

theorem lookup_mem_values (l : List (Char × String)) (c : Char) (s : String)
    (h : charLookup l c = some s) : s ∈ l.map Prod.snd := by
  induction l with
  | nil => simp [charLookup] at h
  | cons hd tl ih =>
      obtain ⟨c', s'⟩ := hd
      by_cases h0 : c' = c
      · rw [charLookup, if_pos h0] at h
        simp only [Option.some.injEq] at h
        simp [h.symm]
      · rw [charLookup, if_neg h0] at h
        simp [ih h]

theorem uniTable_values_ascii :
    ∀ s ∈ uniTable.map Prod.snd, ∀ d ∈ s.data, d.toNat ≤ 127 := by decide

theorem unidecodeChar_ascii (c d : Char) (h : d ∈ unidecodeChar c) :
    d.toNat ≤ 127 := by
  unfold unidecodeChar at h
  by_cases hc : c.toNat ≤ 127
  · rw [if_pos hc] at h
    simp only [List.mem_singleton] at h
    exact h ▸ hc
  · rw [if_neg hc] at h
    cases hl : charLookup uniTable c with
    | none => rw [hl] at h; simp at h
    | some s =>
        rw [hl] at h
        exact uniTable_values_ascii s (lookup_mem_values uniTable c s hl) d h

theorem pyLowerChar_toNat_upper (c : Char) (h : 65 ≤ c.toNat ∧ c.toNat ≤ 90) :
    (pyLowerChar c).toNat = c.toNat + 32 := by
  rw [pyLowerChar, if_pos h]
  exact toNat_ofNat_valid _ (Or.inl (by omega))

theorem pyLowerChar_not_upper (c : Char) :
    ¬(65 ≤ (pyLowerChar c).toNat ∧ (pyLowerChar c).toNat ≤ 90) := by
  by_cases h : 65 ≤ c.toNat ∧ c.toNat ≤ 90
  · rw [pyLowerChar_toNat_upper c h]
    omega
  · rw [pyLowerChar, if_neg h]
    exact h

theorem pyLowerChar_fix (c : Char) (h : ¬(65 ≤ c.toNat ∧ c.toNat ≤ 90)) :
    pyLowerChar c = c := by
  rw [pyLowerChar, if_neg h]

theorem pyLowerChar_ascii (c : Char) (h : c.toNat ≤ 127) :
    (pyLowerChar c).toNat ≤ 127 := by
  by_cases hu : 65 ≤ c.toNat ∧ c.toNat ≤ 90
  · rw [pyLowerChar_toNat_upper c hu]; omega
  · rw [pyLowerChar_fix c hu]; exact h

/-- Every character of a normalized string is ASCII, not an uppercase ASCII
letter, and neither a space nor a hyphen. -/
theorem normalizeString_chars (s : String) (c : Char)
    (h : c ∈ (normalizeString s).data) :
    c.toNat ≤ 127 ∧ ¬(65 ≤ c.toNat ∧ c.toNat ≤ 90) ∧ c ≠ ' ' ∧ c ≠ '-' := by
  unfold normalizeString at h
  by_cases hs : s = ""
  · rw [if_pos hs] at h
    simp at h
  · rw [if_neg hs] at h
    simp only [removeChar, pyLower, unidecode, List.mem_filter] at h
    obtain ⟨⟨hmem, hsp⟩, hhy⟩ := h
    simp only [List.mem_map] at hmem
    obtain ⟨d, hd, hdc⟩ := hmem
    simp only [List.mem_flatten, List.mem_map] at hd
    obtain ⟨l, ⟨e, _, hle⟩, hdl⟩ := hd
    have hascii : d.toNat ≤ 127 := unidecodeChar_ascii e d (hle ▸ hdl)
    subst hdc
    refine ⟨pyLowerChar_ascii d hascii, pyLowerChar_not_upper d, ?_, ?_⟩
    · intro hcq
      rw [hcq] at hsp
      simp at hsp
    · intro hcq
      rw [hcq] at hhy
      simp at hhy

theorem string_mk_data (s : String) : String.mk s.data = s := rfl

theorem flatten_map_unidecodeChar (l : List Char) (h : ∀ c ∈ l, c.toNat ≤ 127) :
    (l.map unidecodeChar).flatten = l := by
  induction l with
  | nil => rfl
  | cons c t ih =>
      have hc : c.toNat ≤ 127 := h c (by simp)
      simp only [List.map_cons, List.flatten_cons, unidecodeChar, if_pos hc,
        List.singleton_append, List.cons.injEq]
      exact ⟨trivial, ih (fun d hd => h d (by simp [hd]))⟩

theorem unidecode_fix (s : String) (h : ∀ c ∈ s.data, c.toNat ≤ 127) :
    unidecode s = s := by
  unfold unidecode
  conv_rhs => rw [← string_mk_data s]
  congr 1
  exact flatten_map_unidecodeChar s.data h

theorem pyLower_fix (s : String) (h : ∀ c ∈ s.data, ¬(65 ≤ c.toNat ∧ c.toNat ≤ 90)) :
    pyLower s = s := by
  unfold pyLower
  conv_rhs => rw [← string_mk_data s]
  congr 1
  rw [List.map_congr_left (fun c hc => pyLowerChar_fix c (h c hc))]
  exact List.map_id' s.data

theorem removeChar_fix (t : Char) (s : String) (h : ∀ c ∈ s.data, c ≠ t) :
    removeChar t s = s := by
  unfold removeChar
  conv_rhs => rw [← string_mk_data s]
  congr 1
  rw [List.filter_eq_self.mpr (fun c hc => by simpa using h c hc)]

/-- C5: for every input string, the output of `normalizeString` is lowercase
(applying lowercasing again changes nothing), consists only of basic-Latin
(ASCII) characters, and contains no space and no hyphen; the empty input
yields the empty string. -/
theorem normalizeString_contract (s : String) :
    pyLower (normalizeString s) = normalizeString s ∧
    (∀ c ∈ (normalizeString s).data, c.toNat ≤ 127 ∧ c ≠ ' ' ∧ c ≠ '-') ∧
    normalizeString "" = "" := by
  refine ⟨?_, ?_, rfl⟩
  · exact pyLower_fix _ (fun c hc => (normalizeString_chars s c hc).2.1)
  · intro c hc
    obtain ⟨h1, _, h3, h4⟩ := normalizeString_chars s c hc
    exact ⟨h1, h3, h4⟩

/-- C6: `normalizeString` is idempotent. -/
theorem normalizeString_idem (s : String) :
    normalizeString (normalizeString s) = normalizeString s := by
  by_cases h0 : normalizeString s = ""
  · rw [h0]; rfl
  · rw [normalizeString, if_neg h0]
    rw [unidecode_fix _ (fun c hc => (normalizeString_chars s c hc).1)]
    rw [pyLower_fix _ (fun c hc => (normalizeString_chars s c hc).2.1)]
    rw [removeChar_fix _ _ (fun c hc => (normalizeString_chars s c hc).2.2.1)]
    rw [removeChar_fix _ _ (fun c hc => (normalizeString_chars s c hc).2.2.2)]

/-! ## SAX events

`xml.sax` delivers `startElement name attrs` / `characters content` /
`endElement name` callbacks; a parsed document is embedded as the list of
these events in document order. -/

inductive SaxEvent where
  | start (name : String) (attrs : List (String × String))
  | chars (content : String)
  | endE (name : String)

/-- Tag comparison as written in the handlers:
`name == tag or name.endswith(":" + tag)` (suffix test spelled on the
character lists so that it evaluates by kernel reduction). -/
def isTag (name tag : String) : Bool :=
  name = tag || (":" ++ tag).data.isSuffixOf name.data

/-! ## `StopHandler` (utils.py lines 81-247) -/

/-- The Quay dict built by `StopHandler.startElement` and completed on
`endElement`; appended to `stops` (the `Stop` records of the catalog). -/
structure Quay where
  id : String
  name : String
  transportMode : String
  otherTransportModes : List String
  normalizedName : String
  normalizedId : String
  parentStopPlaceId : Option String
  cityName : Option String
  deriving Repr, DecidableEq

/-- The transient StopPlace dict. -/
structure SPlace where
  id : String
  otherTransportModes : List String
  topographicPlaceRef : Option String
  deriving Repr, DecidableEq

/-- The transient TopographicPlace dict. -/
structure TPlace where
  id : String
  name : String
  type : String
  deriving Repr, DecidableEq

/-- The mutable fields of `StopHandler.__init__`. -/
structure StopHandlerState where
  current_quay : Option Quay := none
  current_stop_place : Option SPlace := none
  current_topographic_place : Option TPlace := none
  stop_places : List (String × SPlace) := []
  topographic_places : List (String × TPlace) := []
  stops : List Quay := []
  current_element : Option String := none
  current_content : String := ""
  in_name : Bool := false
  in_transport_mode : Bool := false
  in_other_transport_modes : Bool := false
  in_site_ref : Bool := false
  in_topographic_place_ref : Bool := false
  in_topographic_place : Bool := false
  in_topographic_place_type : Bool := false

/-- Python truthiness of an optional string stored via `if ref:` guards
(`None` and `""` are falsy). -/
def truthyOptStr (o : Option String) : Bool :=
  match o with
  | none => false
  | some s => s ≠ ""

/-- `StopHandler.startElement`. -/
def stopStart (st : StopHandlerState) (name : String)
    (attrs : List (String × String)) : StopHandlerState :=
  let st := { st with current_element := some name }
  if isTag name "Quay" then
    let q : Quay :=
      { id := attrGet attrs "id" "", name := "", transportMode := "unknown",
        otherTransportModes := [], normalizedName := "", normalizedId := "",
        parentStopPlaceId := none, cityName := none }
    { st with current_quay := some q }
  else if isTag name "StopPlace" then
    let sp : SPlace :=
      { id := attrGet attrs "id" "", otherTransportModes := [],
        topographicPlaceRef := none }
    { st with current_stop_place := some sp }
  else if isTag name "TopographicPlace" then
    let tp : TPlace := { id := attrGet attrs "id" "", name := "", type := "" }
    { st with current_topographic_place := some tp,
              in_topographic_place := true }
  else if isTag name "Name" then
    if st.current_quay.isSome then { st with in_name := true }
    else if st.current_topographic_place.isSome && !st.in_name then
      { st with in_name := true }
    else st
  else if isTag name "TransportMode" then
    if st.current_quay.isSome then { st with in_transport_mode := true } else st
  else if isTag name "OtherTransportModes" then
    if st.current_stop_place.isSome then
      { st with in_other_transport_modes := true }
    else st
  else if isTag name "SiteRef" then
    match st.current_quay with
    | some q =>
        let st := { st with in_site_ref := true }
        let ref := attrGet attrs "ref" ""
        if ref ≠ "" then
          { st with current_quay := some { q with parentStopPlaceId := some ref } }
        else st
    | none => st
  else if isTag name "TopographicPlaceRef" then
    match st.current_stop_place with
    | some sp =>
        let st := { st with in_topographic_place_ref := true }
        let ref := attrGet attrs "ref" ""
        if ref ≠ "" then
          { st with current_stop_place := some { sp with topographicPlaceRef := some ref } }
        else st
    | none => st
  else if isTag name "TopographicPlaceType" then
    if st.current_topographic_place.isSome then
      { st with in_topographic_place_type := true }
    else st
  else st

/-- `StopHandler.characters`. -/
def stopChars (st : StopHandlerState) (content : String) : StopHandlerState :=
  if st.in_name || st.in_transport_mode || st.in_other_transport_modes
      || st.in_topographic_place_type then
    { st with current_content := st.current_content ++ content }
  else st

/-- `StopHandler.endElement`. -/
def stopEnd (st : StopHandlerState) (name : String) : StopHandlerState :=
  if isTag name "Quay" then
    match st.current_quay with
    | some q =>
        let q := { q with
          normalizedName := normalizeString q.name,
          normalizedId := normalizeString q.id }
        let q :=
          if truthyOptStr q.parentStopPlaceId then
            match dictGet st.stop_places (q.parentStopPlaceId.getD "") with
            | some parent =>
                let q := { q with otherTransportModes := parent.otherTransportModes }
                if truthyOptStr parent.topographicPlaceRef then
                  match dictGet st.topographic_places
                      (parent.topographicPlaceRef.getD "") with
                  | some city => { q with cityName := some city.name }
                  | none => q
                else q
            | none => q
          else q
        { st with stops := st.stops ++ [q], current_quay := none }
    | none => { st with current_quay := none }
  else if isTag name "StopPlace" then
    match st.current_stop_place with
    | some sp =>
        { st with stop_places := dictInsert st.stop_places sp.id sp,
                  current_stop_place := none }
    | none => { st with current_stop_place := none }
  else if isTag name "TopographicPlace" then
    match st.current_topographic_place with
    | some tp =>
        { st with topographic_places := dictInsert st.topographic_places tp.id tp,
                  current_topographic_place := none,
                  in_topographic_place := false }
    | none => { st with current_topographic_place := none,
                        in_topographic_place := false }
  else if isTag name "Name" then
    let st :=
      if st.in_name then
        match st.current_quay with
        | some q => { st with current_quay := some { q with name := pyStrip st.current_content } }
        | none =>
            match st.current_topographic_place with
            | some tp =>
                let tp := { tp with name := pyStrip st.current_content }
                { st with current_topographic_place := some tp }
            | none => st
      else st
    { st with in_name := false, current_content := "" }
  else if isTag name "TransportMode" then
    let st :=
      if st.in_transport_mode then
        match st.current_quay with
        | some q =>
            let q := { q with transportMode := pyLower (pyStrip st.current_content) }
            { st with current_quay := some q }
        | none => st
      else st
    { st with in_transport_mode := false, current_content := "" }
  else if isTag name "OtherTransportModes" then
    let st :=
      if st.in_other_transport_modes then
        match st.current_stop_place with
        | some sp =>
            let sp := { sp with otherTransportModes := pySplitWS st.current_content }
            { st with current_stop_place := some sp }
        | none => st
      else st
    { st with in_other_transport_modes := false, current_content := "" }
  else if isTag name "SiteRef" then
    { st with in_site_ref := false }
  else if isTag name "TopographicPlaceRef" then
    { st with in_topographic_place_ref := false }
  else if isTag name "TopographicPlaceType" then
    let st :=
      if st.in_topographic_place_type then
        match st.current_topographic_place with
        | some tp =>
            let tp := { tp with type := pyLower (pyStrip st.current_content) }
            { st with current_topographic_place := some tp }
        | none => st
      else st
    { st with in_topographic_place_type := false, current_content := "" }
  else st

def stopStep (st : StopHandlerState) (ev : SaxEvent) : StopHandlerState :=
  match ev with
  | .start name attrs => stopStart st name attrs
  | .chars content => stopChars st content
  | .endE name => stopEnd st name

/-- `parse_netex_file`: run the SAX handler over the document's events and
return the collected stop list (utils.py lines 250-256). -/
def parse_netex_file (events : List SaxEvent) : List Quay :=
  (events.foldl stopStep {}).stops

/-- The catalog of the C2 scenario, read literally: the Quay is nested
inside the StopPlace element (as NeTEx nests quays), so the Quay closes
before its parent StopPlace does. -/
def c2NestedEvents : List SaxEvent :=
  [.start "StopPlace" [("id", "SP1")],
   .start "OtherTransportModes" [],
   .chars "rail coach",
   .endE "OtherTransportModes",
   .start "Quay" [("id", "Q1")],
   .start "SiteRef" [("ref", "SP1")],
   .endE "SiteRef",
   .start "Name" [],
   .chars "Gare Centrale",
   .endE "Name",
   .endE "Quay",
   .endE "StopPlace"]

/-- The same catalog with the Quay as a following sibling of the StopPlace:
the StopPlace has already closed when the Quay's SiteRef is resolved. -/
def c2SiblingEvents : List SaxEvent :=
  [.start "StopPlace" [("id", "SP1")],
   .start "OtherTransportModes" [],
   .chars "rail coach",
   .endE "OtherTransportModes",
   .endE "StopPlace",
   .start "Quay" [("id", "Q1")],
   .start "SiteRef" [("ref", "SP1")],
   .endE "SiteRef",
   .start "Name" [],
   .chars "Gare Centrale",
   .endE "Name",
   .endE "Quay"]

/-- C2 counterexample: loading the catalog with the Quay nested under the
StopPlace yields one Stop whose `normalizedName` is "garecentrale" but whose
`otherTransportModes` is the empty list, not `["rail", "coach"]` — the
parent StopPlace is not yet in the auxiliary table when the Quay closes. -/
theorem stop_catalog_nested_quay_counterexample :
    (parse_netex_file c2NestedEvents).map Quay.normalizedName = ["garecentrale"] ∧
    (parse_netex_file c2NestedEvents).map Quay.otherTransportModes = [[]] ∧
    ([[]] : List (List String)) ≠ [["rail", "coach"]] := by
  refine ⟨by decide, by decide, by decide⟩

/-- C2 amended: when the Quay (id "Q1", name "Gare Centrale", SiteRef to the
StopPlace) closes after the StopPlace carrying `OtherTransportModes`
"rail coach" has closed, loading yields exactly one Stop record with
`normalizedName` "garecentrale" and `otherTransportModes` `["rail","coach"]`;
with the Quay nested inside the StopPlace the inherited modes are empty. -/
theorem stop_catalog_quay_scenario :
    parse_netex_file c2SiblingEvents =
      [{ id := "Q1", name := "Gare Centrale", transportMode := "unknown",
         otherTransportModes := ["rail", "coach"],
         normalizedName := "garecentrale", normalizedId := "q1",
         parentStopPlaceId := some "SP1", cityName := none }] ∧
    (parse_netex_file c2NestedEvents).map Quay.otherTransportModes = [[]] := by
  refine ⟨by decide, by decide⟩

/-! ## `LineHandler` (utils.py lines 326-430) and `get_line_info` -/

/-- A Line record as built by `LineHandler.startElement`. -/
structure LineRec where
  id : String
  full_id : String
  public_code : Option String
  transport_mode : Option String
  color : Option String
  text_color : Option String
  deriving Repr, DecidableEq

/-- Python `s.split(sep)` for a single-character separator: splits at every
occurrence, keeping empty pieces; the empty string yields `[""]`. -/
def splitOnChar (sep : Char) (l : List Char) : List (List Char) :=
  l.foldr
    (fun c acc =>
      if c = sep then [] :: acc
      else
        match acc with
        | [] => [[c]]
        | w :: ws => (c :: w) :: ws)
    [[]]

/-- Python `s.replace(old, new)`: replace every non-overlapping occurrence of
`old`, scanning left to right (fuel-indexed structural recursion; the fuel
`l.length` bounds the number of steps). -/
def pyReplaceAux (old new : List Char) : Nat → List Char → List Char
  | _, [] => []
  | 0, l => l
  | fuel + 1, c :: rest =>
      if old ≠ [] ∧ old.isPrefixOf (c :: rest) then
        new ++ pyReplaceAux old new fuel ((c :: rest).drop old.length)
      else
        c :: pyReplaceAux old new fuel rest

def pyReplace (s old new : String) : String :=
  ⟨pyReplaceAux old.data new.data s.data.length s.data⟩

example : pyReplace "ab:LOCcd" ":LOC" "" = "abcd" := by decide
example : pyReplace "X:LOC:LOC" ":LOC" "" = "X" := by decide

/-- Short-id derivation (utils.py line 346 and line 487):
`line_id.split(":")[-1].replace(":LOC", "")`. -/
def shortId (line_id : String) : String :=
  pyReplace ⟨(splitOnChar ':' line_id.data).getLastD []⟩ ":LOC" ""

example : shortId "FR:Line:42:LOC" = "LOC" := by decide
example : shortId "FR:Line:42" = "42" := by decide

/-- The mutable fields of `LineHandler.__init__`. -/
structure LineHandlerState where
  lines : List (String × LineRec) := []
  current_line : Option LineRec := none
  current_element : Option String := none
  current_content : String := ""
  in_public_code : Bool := false
  in_transport_mode : Bool := false
  in_colour : Bool := false
  in_text_colour : Bool := false
  has_presentation : Bool := false

/-- `LineHandler.startElement`. -/
def lineStart (st : LineHandlerState) (name : String)
    (attrs : List (String × String)) : LineHandlerState :=
  let st := { st with current_element := some name }
  if isTag name "Line" then
    let line_id := attrGet attrs "id" ""
    if line_id ≠ "" then
      let l : LineRec :=
        { id := shortId line_id, full_id := line_id, public_code := none,
          transport_mode := none, color := none, text_color := none }
      { st with current_line := some l }
    else st
  else if isTag name "PublicCode" then
    if st.current_line.isSome then { st with in_public_code := true } else st
  else if isTag name "TransportMode" then
    if st.current_line.isSome then { st with in_transport_mode := true } else st
  else if isTag name "Presentation" then
    if st.current_line.isSome then { st with has_presentation := true } else st
  else if isTag name "Colour" then
    if st.current_line.isSome && st.has_presentation then
      { st with in_colour := true }
    else st
  else if isTag name "TextColour" then
    if st.current_line.isSome && st.has_presentation then
      { st with in_text_colour := true }
    else st
  else st

/-- `LineHandler.characters`. -/
def lineChars (st : LineHandlerState) (content : String) : LineHandlerState :=
  if st.in_public_code || st.in_transport_mode || st.in_colour
      || st.in_text_colour then
    { st with current_content := st.current_content ++ content }
  else st

/-- `LineHandler.endElement`. -/
def lineEnd (st : LineHandlerState) (name : String) : LineHandlerState :=
  if isTag name "Line" then
    let st :=
      match st.current_line with
      | some l =>
          { st with lines := dictInsert (dictInsert st.lines l.id l) l.full_id l }
      | none => st
    { st with current_line := none, has_presentation := false }
  else if isTag name "Presentation" then
    { st with has_presentation := false }
  else if isTag name "PublicCode" then
    let st :=
      if st.in_public_code then
        match st.current_line with
        | some l =>
            let l := { l with public_code := some (pyStrip st.current_content) }
            { st with current_line := some l }
        | none => st
      else st
    { st with in_public_code := false, current_content := "" }
  else if isTag name "TransportMode" then
    let st :=
      if st.in_transport_mode then
        match st.current_line with
        | some l =>
            let l := { l with transport_mode := some (pyLower (pyStrip st.current_content)) }
            { st with current_line := some l }
        | none => st
      else st
    { st with in_transport_mode := false, current_content := "" }
  else if isTag name "Colour" then
    let st :=
      if st.in_colour then
        match st.current_line with
        | some l =>
            let color := pyStrip st.current_content
            if color ≠ "" then
              let l := { l with color := some ("#" ++ color) }
              { st with current_line := some l }
            else st
        | none => st
      else st
    { st with in_colour := false, current_content := "" }
  else if isTag name "TextColour" then
    let st :=
      if st.in_text_colour then
        match st.current_line with
        | some l =>
            let text_color := pyStrip st.current_content
            if text_color ≠ "" then
              let l := { l with text_color := some ("#" ++ text_color) }
              { st with current_line := some l }
            else st
        | none => st
      else st
    { st with in_text_colour := false, current_content := "" }
  else st

def lineStep (st : LineHandlerState) (ev : SaxEvent) : LineHandlerState :=
  match ev with
  | .start name attrs => lineStart st name attrs
  | .chars content => lineChars st content
  | .endE name => lineEnd st name

/-- `parse_lines_file`: run the SAX handler over the document's events and
return the dual-keyed line table (utils.py lines 433-439). -/
def parse_lines_file (events : List SaxEvent) : List (String × LineRec) :=
  (events.foldl lineStep {}).lines

/-- `get_line_info` (utils.py lines 475-491), with the per-instance global
repository passed explicitly as `table`: literal lookup first, then the
derived short id; `none` when the repository is empty or both lookups miss. -/
def get_line_info (table : List (String × LineRec)) (line_ref : String) :
    Option LineRec :=
  if table = [] then none
  else
    match dictGet table line_ref with
    | some l => some l
    | none =>
        match dictGet table (shortId line_ref) with
        | some l => some l
        | none => none

/-! ### The line table built from a catalog of plain Line elements -/

/-- Events of a line catalog consisting of bare `Line` elements with the
given ids, in order. -/
def lineOnlyEvents (ids : List String) : List SaxEvent :=
  (ids.map (fun i => [SaxEvent.start "Line" [("id", i)], SaxEvent.endE "Line"])).flatten

/-- The record `LineHandler` builds for a childless Line element. -/
def plainLineRec (i : String) : LineRec :=
  { id := shortId i, full_id := i, public_code := none, transport_mode := none,
    color := none, text_color := none }

/-- The table obtained by inserting each line under its short id and then
its full id (utils.py lines 393-394). -/
def linesTableFrom (t : List (String × LineRec)) (ids : List String) :
    List (String × LineRec) :=
  ids.foldl
    (fun t j =>
      if j = "" then t
      else dictInsert (dictInsert t (shortId j) (plainLineRec j)) j (plainLineRec j))
    t

theorem lineStep_pair (st : LineHandlerState) (j : String)
    (h : st.current_line = none) :
    (lineStep (lineStep st (.start "Line" [("id", j)])) (.endE "Line")).lines
      = (if j = "" then st.lines
         else dictInsert (dictInsert st.lines (shortId j) (plainLineRec j)) j
                (plainLineRec j)) ∧
    (lineStep (lineStep st (.start "Line" [("id", j)])) (.endE "Line")).current_line
      = none := by
  have htag : isTag "Line" "Line" = true := rfl
  have hattr : attrGet [("id", j)] "id" "" = j := by
    simp [attrGet, List.lookup]
  by_cases hj : j = ""
  · subst hj
    simp [lineStep, lineStart, lineEnd, htag, hattr, h]
  · simp [lineStep, lineStart, lineEnd, htag, hattr, hj, h, plainLineRec]

theorem run_lineOnlyEvents (ids : List String) (st : LineHandlerState)
    (h : st.current_line = none) :
    (List.foldl lineStep st (lineOnlyEvents ids)).lines
      = linesTableFrom st.lines ids := by
  induction ids generalizing st with
  | nil => simp [lineOnlyEvents, linesTableFrom]
  | cons j rest ih =>
      have hsplit : lineOnlyEvents (j :: rest)
          = [SaxEvent.start "Line" [("id", j)], SaxEvent.endE "Line"]
            ++ lineOnlyEvents rest := by
        simp [lineOnlyEvents]
      rw [hsplit, List.foldl_append]
      obtain ⟨h1, h2⟩ := lineStep_pair st j h
      set st2 := lineStep (lineStep st (.start "Line" [("id", j)])) (.endE "Line")
        with hst2
      simp only [List.foldl_cons, List.foldl_nil]
      rw [← hst2, ih st2 h2, h1]
      by_cases hj : j = "" <;>
        simp [linesTableFrom, hj]

theorem linesTableFrom_untouched (ids : List String)
    (t : List (String × LineRec)) (k : String)
    (hk : ∀ j ∈ ids, k ≠ j ∧ k ≠ shortId j) :
    dictGet (linesTableFrom t ids) k = dictGet t k := by
  induction ids generalizing t with
  | nil => rfl
  | cons j rest ih =>
      obtain ⟨hkj, hks⟩ := hk j (by simp)
      have hrest : ∀ x ∈ rest, k ≠ x ∧ k ≠ shortId x :=
        fun x hx => hk x (by simp [hx])
      by_cases hj : j = ""
      · simp only [linesTableFrom, List.foldl_cons, if_pos hj]
        exact ih t hrest
      · simp only [linesTableFrom, List.foldl_cons, if_neg hj]
        rw [show List.foldl _ _ rest = linesTableFrom
              (dictInsert (dictInsert t (shortId j) (plainLineRec j)) j (plainLineRec j))
              rest from rfl]
        rw [ih _ hrest, dictGet_insert_ne _ _ _ _ hkj, dictGet_insert_ne _ _ _ _ hks]

theorem linesTableFrom_lookup (ids : List String) (t : List (String × LineRec))
    (i : String) (hi : i ∈ ids)
    (hne : ∀ j ∈ ids, j ≠ "")
    (hnd : ids.Nodup)
    (hcompat : ∀ j ∈ ids, ∀ k ∈ ids, j ≠ k →
        shortId j ≠ shortId k ∧ shortId j ≠ k ∧ j ≠ shortId k) :
    dictGet (linesTableFrom t ids) i = some (plainLineRec i) ∧
    dictGet (linesTableFrom t ids) (shortId i) = some (plainLineRec i) := by
  induction ids generalizing t with
  | nil => simp at hi
  | cons j rest ih =>
      have hjne : j ≠ "" := hne j (by simp)
      have hnd' : rest.Nodup := hnd.of_cons
      rcases List.mem_cons.mp hi with hij | hirest
      · subst hij
        have hjnotin : i ∉ rest := (List.nodup_cons.mp hnd).1
        simp only [linesTableFrom, List.foldl_cons, if_neg hjne]
        rw [show List.foldl _ _ rest = linesTableFrom
              (dictInsert (dictInsert t (shortId i) (plainLineRec i)) i (plainLineRec i))
              rest from rfl]
        have huntouched1 : ∀ x ∈ rest, i ≠ x ∧ i ≠ shortId x := by
          intro x hx
          have hix : i ≠ x := fun he => hjnotin (he ▸ hx)
          have := hcompat i (by simp) x (by simp [hx]) hix
          exact ⟨hix, this.2.2⟩
        have huntouched2 : ∀ x ∈ rest, shortId i ≠ x ∧ shortId i ≠ shortId x := by
          intro x hx
          have hix : i ≠ x := fun he => hjnotin (he ▸ hx)
          have := hcompat i (by simp) x (by simp [hx]) hix
          exact ⟨this.2.1, this.1⟩
        constructor
        · rw [linesTableFrom_untouched rest _ i huntouched1,
            dictGet_insert_self]
        · rw [linesTableFrom_untouched rest _ (shortId i) huntouched2]
          by_cases hsi : shortId i = i
          · rw [hsi, dictGet_insert_self]
          · rw [dictGet_insert_ne _ _ _ _ hsi, dictGet_insert_self]
      · have hne' : ∀ x ∈ rest, x ≠ "" := fun x hx => hne x (by simp [hx])
        have hcompat' : ∀ x ∈ rest, ∀ y ∈ rest, x ≠ y →
            shortId x ≠ shortId y ∧ shortId x ≠ y ∧ x ≠ shortId y :=
          fun x hx y hy => hcompat x (by simp [hx]) y (by simp [hy])
        by_cases hj : j = ""
        · exact absurd hj hjne
        · simp only [linesTableFrom, List.foldl_cons, if_neg hj]
          exact ih _ hirest hne' hnd' hcompat'

/-- C3 counterexample: a catalog with lines "A:1" and "B:1" (both of derived
short id "1").  Line "A:1" is loaded, lookup by its full identifier returns
its own record, but lookup by its derived short identifier returns the
record of "B:1" — not the identical record. -/
theorem line_repository_dual_lookup_counterexample :
    get_line_info (parse_lines_file
        (lineOnlyEvents ["A:1", "B:1"])) "A:1" = some (plainLineRec "A:1") ∧
    get_line_info (parse_lines_file
        (lineOnlyEvents ["A:1", "B:1"])) (shortId "A:1") = some (plainLineRec "B:1") ∧
    plainLineRec "A:1" ≠ plainLineRec "B:1" := by
  refine ⟨by decide, by decide, by decide⟩

/-- C3 amended: for a loaded line catalog in which no two distinct lines
collide on any table key (derived short ids pairwise distinct and distinct
from other lines' full ids), looking the table up by a loaded line's full
identifier and by its derived short identifier both succeed and return the
identical record. -/
theorem line_repository_dual_lookup (ids : List String) (i : String)
    (hi : i ∈ ids)
    (hne : ∀ j ∈ ids, j ≠ "")
    (hnd : ids.Nodup)
    (hcompat : ∀ j ∈ ids, ∀ k ∈ ids, j ≠ k →
        shortId j ≠ shortId k ∧ shortId j ≠ k ∧ j ≠ shortId k) :
    get_line_info (parse_lines_file (lineOnlyEvents ids)) i
      = some (plainLineRec i) ∧
    get_line_info (parse_lines_file (lineOnlyEvents ids)) (shortId i)
      = some (plainLineRec i) := by
  have hrun : parse_lines_file (lineOnlyEvents ids) = linesTableFrom [] ids := by
    unfold parse_lines_file
    exact run_lineOnlyEvents ids {} rfl
  obtain ⟨hfull, hshort⟩ := linesTableFrom_lookup ids [] i hi hne hnd hcompat
  have hnonempty : linesTableFrom [] ids ≠ [] := by
    intro hempty
    rw [hempty] at hfull
    simp [dictGet] at hfull
  rw [hrun]
  unfold get_line_info
  rw [if_neg hnonempty, if_neg hnonempty, hfull, hshort]
  exact ⟨rfl, rfl⟩

/-- Witness instantiating the amended C3 theorem on a concrete two-line
catalog. -/
theorem line_repository_dual_lookup_witness :
    get_line_info (parse_lines_file (lineOnlyEvents ["net:A:10", "net:B:20"]))
        "net:A:10" = some (plainLineRec "net:A:10") ∧
    get_line_info (parse_lines_file (lineOnlyEvents ["net:A:10", "net:B:20"]))
        (shortId "net:A:10") = some (plainLineRec "net:A:10") :=
  line_repository_dual_lookup ["net:A:10", "net:B:20"] "net:A:10"
    (by decide) (by decide) (by decide) (by decide)

/-! ## `load_stops_from_url` (utils.py lines 44-283), effect trace

The routine's filesystem effects on its temporary download file are modelled
by threading the file's existence explicitly through the control flow.  The
paths of the source are: the streaming download raises (HTTP error or
network failure), the SAX parse raises (malformed XML), or both succeed; in
every case the `try/except/finally` structure runs the `finally` cleanup,
which unlinks the file when it still exists (the success path has already
unlinked it at line 264). -/

/-- Outcome of the download + parse stages: the download fails, the parse
fails, or the parse succeeds on the downloaded document's events. -/
inductive LoadOutcome where
  | downloadFail
  | parseFail
  | parsed (events : List SaxEvent)

/-- The `finally` block (utils.py lines 274-281): delete the temporary file
if it still exists. -/
def finallyCleanup (fileExists : Bool) : Bool :=
  if fileExists then false else fileExists

/-- `load_stops_from_url`: returns the stop list together with whether the
temporary file still exists after the call.  The temporary file is created
first (`exists = true`); on success the file is unlinked at line 264 before
the `finally` block runs; on either failure the exception handler returns
`[]` and the `finally` block deletes the still-existing file. -/
def load_stops_from_url (o : LoadOutcome) : List Quay × Bool :=
  match o with
  | .downloadFail => ([], finallyCleanup true)
  | .parseFail => ([], finallyCleanup true)
  | .parsed events =>
      let stops := parse_netex_file events
      let fileAfterSuccessUnlink := false
      (stops, finallyCleanup fileAfterSuccessUnlink)

/-- C8: on every exit path of `load_stops_from_url` — successful load, parse
failure, download failure — the temporary download file no longer exists
after the call returns. -/
theorem load_stops_temp_file_deleted (o : LoadOutcome) :
    (load_stops_from_url o).2 = false := by
  cases o <;> rfl

/-! ## `get_departures_for_stops` (utils.py lines 546-756)

The `xmltodict` output is embedded as `XVal`: an element is `null` (empty
element / explicit `None`), a text string, a mapping (`obj`), or a list of
repeated elements (`arr`).  Python attribute errors (`.get` on a non-dict),
unhashable-key errors (a non-string used in an `in` test or dict lookup) and
indexing errors are modelled by `Except Unit`; they are swallowed by the
source's blanket `except Exception: return None` (line 751). -/

inductive XVal where
  | null
  | str (s : String)
  | obj (fields : List (String × XVal))
  | arr (elems : List XVal)

/-- Python truthiness of an `xmltodict` value: `None`, `""`, `{}`, `[]` are
falsy. -/
def pyFalsy (v : XVal) : Bool :=
  match v with
  | .null => true
  | .str s => s = ""
  | .obj fs => fs.isEmpty
  | .arr l => l.isEmpty

/-- Total `dict.get(k)` on an `obj`'s field list (Python `None` on a miss). -/
def xLook (fs : List (String × XVal)) (k : String) : XVal :=
  match dictGet fs k with
  | some v => v
  | none => .null

/-- `v.get(k)`: succeeds only on a dict; `.get` on `None`, a string or a
list raises `AttributeError`. -/
def pyGet (v : XVal) (k : String) : Except Unit XVal :=
  match v with
  | .obj fs => .ok (xLook fs k)
  | _ => .error ()

/-- `v.get(k, d)` with an explicit default. -/
def pyGetD (v : XVal) (k : String) (d : XVal) : Except Unit XVal :=
  match v with
  | .obj fs =>
      .ok (match dictGet fs k with
           | some x => x
           | none => d)
  | _ => .error ()

/-- The recurring pattern `x.get("#text") if isinstance(x, dict) else x`. -/
def textOrSelf (v : XVal) : XVal :=
  match v with
  | .obj fs => xLook fs "#text"
  | _ => v

/-- The pattern `x = x[0] if isinstance(x, list) else x` (the source only
indexes after a truthiness check, so the empty-list branch — which would
raise `IndexError` in Python — is unreachable but kept faithful). -/
def headIfList (v : XVal) : Except Unit XVal :=
  match v with
  | .arr [] => .error ()
  | .arr (x :: _) => .ok x
  | _ => .ok v

/-- `for visit in x`: iterating a list yields its elements, a dict its keys,
a string its characters; iterating `None` raises `TypeError`. -/
def iterItems (v : XVal) : Except Unit (List XVal) :=
  match v with
  | .arr l => .ok l
  | .obj fs => .ok (fs.map (fun p => XVal.str p.1))
  | .str s => .ok (s.data.map (fun c => XVal.str ⟨[c]⟩))
  | .null => .error ()

/-- Namespace-qualified element keys used by the client. -/
def siriNS : String := "http://www.siri.org.uk/siri"

def kSiri : String := siriNS ++ ":Siri"
def kServiceDelivery : String := siriNS ++ ":ServiceDelivery"
def kStopMonitoringDelivery : String := siriNS ++ ":StopMonitoringDelivery"
def kMonitoredStopVisit : String := siriNS ++ ":MonitoredStopVisit"
def kMonitoringRef : String := siriNS ++ ":MonitoringRef"
def kMonitoredVehicleJourney : String := siriNS ++ ":MonitoredVehicleJourney"
def kLineRef : String := siriNS ++ ":LineRef"
def kDestinationName : String := siriNS ++ ":DestinationName"
def kMonitoredCall : String := siriNS ++ ":MonitoredCall"
def kExpectedDepartureTime : String := siriNS ++ ":ExpectedDepartureTime"
def kAimedDepartureTime : String := siriNS ++ ":AimedDepartureTime"
def kVehicleAtStop : String := siriNS ++ ":VehicleAtStop"
def kPublishedLineName : String := siriNS ++ ":PublishedLineName"
def kVehicleMode : String := siriNS ++ ":VehicleMode"

/-- The `departure_data` dict (utils.py lines 717-725), with the optional
enrichment fields of lines 731-734 (absent when no enrichment applied). -/
structure Departure where
  line_ref : XVal
  published_line_name : XVal
  destination_name : XVal
  expected_departure_time : XVal
  aimed_departure_time : XVal
  vehicle_mode : XVal
  vehicle_at_stop : Option Bool
  line_public_code : Option (Option String) := none
  line_transport_mode : Option (Option String) := none
  line_color : Option (Option String) := none
  line_text_color : Option (Option String) := none

/-- Copy the four descriptive fields of a matched line onto the departure
(utils.py lines 729-734); no match leaves the departure unchanged. -/
def enrichDeparture (d : Departure) (li : Option LineRec) : Departure :=
  match li with
  | some l =>
      { d with
        line_public_code := some l.public_code,
        line_transport_mode := some l.transport_mode,
        line_color := some l.color,
        line_text_color := some l.text_color }
  | none => d

/-- Extraction of one departure from a truthy `MonitoredVehicleJourney`
(utils.py lines 652-734): `ok none` means the visit is skipped because
`MonitoredCall` is falsy; `error` models a raised exception. -/
def extractDeparture (repo : List (String × LineRec)) (journey : XVal) :
    Except Unit (Option Departure) :=
  match pyGet journey kLineRef with
  | .error e => .error e
  | .ok lineRefV =>
    match pyGet journey kDestinationName with
    | .error e => .error e
    | .ok destV =>
      match pyGet journey kMonitoredCall with
      | .error e => .error e
      | .ok call0 =>
        if pyFalsy call0 then .ok none
        else
          match headIfList call0 with
          | .error e => .error e
          | .ok call =>
            match pyGet call kExpectedDepartureTime with
            | .error e => .error e
            | .ok edtV =>
              match pyGet call kAimedDepartureTime with
              | .error e => .error e
              | .ok adtV =>
                match pyGet call kVehicleAtStop with
                | .error e => .error e
                | .ok vasV =>
                  match pyGet journey kPublishedLineName with
                  | .error e => .error e
                  | .ok plnV =>
                    match pyGet journey kVehicleMode with
                    | .error e => .error e
                    | .ok vmV =>
                      let line_ref := textOrSelf lineRefV
                      let vas : Option Bool :=
                        match textOrSelf vasV with
                        | .str t => some (t = "true")
                        | _ => none
                      let base : Departure :=
                        { line_ref := line_ref,
                          published_line_name := textOrSelf plnV,
                          destination_name := textOrSelf destV,
                          expected_departure_time := textOrSelf edtV,
                          aimed_departure_time := textOrSelf adtV,
                          vehicle_mode := textOrSelf vmV,
                          vehicle_at_stop := vas }
                      if repo ≠ [] ∧ ¬ pyFalsy line_ref then
                        match line_ref with
                        | .str lr =>
                            .ok (some (enrichDeparture base (get_line_info repo lr)))
                        | _ => .error ()
                      else .ok (some base)

/-- Processing of one `MonitoredStopVisit` record (the body of the loop at
utils.py lines 627-736), transforming the accumulated per-stop grouping. -/
def processVisit (limit : Int) (repo : List (String × LineRec))
    (acc : List (String × List Departure)) (visit : XVal) :
    Except Unit (List (String × List Departure)) :=
  match pyGet visit kMonitoringRef with
  | .error e => .error e
  | .ok mref =>
    let sid := textOrSelf mref
    if pyFalsy sid then .ok acc
    else
      match sid with
      | .null => .ok acc
      | .arr _ => .error ()
      | .obj _ => .error ()
      | .str s =>
        match dictGet acc s with
        | none => .ok acc
        | some cur =>
          if (cur.length : Int) ≥ limit ∧ limit > 0 then .ok acc
          else
            match pyGet visit kMonitoredVehicleJourney with
            | .error e => .error e
            | .ok journey =>
              if pyFalsy journey then .ok acc
              else
                match extractDeparture repo journey with
                | .error e => .error e
                | .ok none => .ok acc
                | .ok (some dep) => .ok (dictInsert acc s (cur ++ [dep]))

/-- The initial grouping `{stop_id: [] for stop_id in stop_ids}`. -/
def initDepartures (stop_ids : List String) : List (String × List Departure) :=
  stop_ids.foldl (fun d k => dictInsert d k ([] : List Departure)) []

/-- The `for visit in monitored_stop_visits` loop (utils.py line 627),
threading the grouping through `processVisit` and propagating a raised
exception. -/
def foldVisits (limit : Int) (repo : List (String × LineRec))
    (acc : List (String × List Departure)) :
    List XVal → Except Unit (List (String × List Departure))
  | [] => .ok acc
  | v :: rest =>
      match processVisit limit repo acc v with
      | .error e => .error e
      | .ok acc' => foldVisits limit repo acc' rest

/-- Processing from the (list-normalized) service-delivery element down:
stop-monitoring-delivery lookup, visit-list extraction and the visit loop
(utils.py lines 606-741). -/
def processFromSD (stop_ids : List String) (limit : Int)
    (repo : List (String × LineRec)) (sd : XVal) :
    Except Unit (Option (List (String × List Departure))) :=
  match pyGet sd kStopMonitoringDelivery with
  | .error e => .error e
  | .ok smd0 =>
    if pyFalsy smd0 then .ok (some [])
    else
      match headIfList smd0 with
      | .error e => .error e
      | .ok smd =>
        match pyGetD smd kMonitoredStopVisit (.arr []) with
        | .error e => .error e
        | .ok visitsVal =>
          match iterItems visitsVal with
          | .error e => .error e
          | .ok visits =>
            match foldVisits limit repo (initDepartures stop_ids) visits with
            | .error e => .error e
            | .ok final => .ok (some final)

/-- Descent through the parsed response and the visit loop (utils.py lines
593-741): `ok none` is the protocol-error `return None`, `ok (some m)` a
returned grouping, `error` a raised exception (swallowed to `None` by the
caller's handler). -/
def processDoc (stop_ids : List String) (limit : Int)
    (repo : List (String × LineRec)) (doc : XVal) :
    Except Unit (Option (List (String × List Departure))) :=
  match pyGet doc kSiri with
  | .error e => .error e
  | .ok siri =>
    if pyFalsy siri then .ok none
    else
      match pyGet siri kServiceDelivery with
      | .error e => .error e
      | .ok sd0 =>
        if pyFalsy sd0 then .ok none
        else
          match headIfList sd0 with
          | .error e => .error e
          | .ok sd => processFromSD stop_ids limit repo sd

/-- Outcome of the transport + XML-parse stages of the live request:
HTTP failure (`raise_for_status` or network error), `ExpatError` from
`xmltodict.parse`, or a parsed document. -/
inductive FetchResult where
  | transportError
  | parseError
  | parsed (doc : XVal)

/-- `get_departures_for_stops` with the fetch outcome passed explicitly and
the loaded line repository as a parameter (the source loads it from a URL
into a per-instance global; claims about caching are out of scope here).
`none` is the failure sentinel, `some m` the per-stop grouping. -/
def get_departures_for_stops (stop_ids : List String) (limit : Int)
    (repo : List (String × LineRec)) (fetch : FetchResult) :
    Option (List (String × List Departure)) :=
  if stop_ids = [] then some []
  else
    match fetch with
    | .transportError => none
    | .parseError => none
    | .parsed doc =>
        match processDoc stop_ids limit repo doc with
        | .error _ => none
        | .ok r => r

/-! ### Structure of a successful visit step -/

theorem processVisit_ok_cases (limit : Int) (repo : List (String × LineRec))
    (acc : List (String × List Departure)) (visit : XVal)
    (r : List (String × List Departure))
    (h : processVisit limit repo acc visit = .ok r) :
    r = acc ∨ ∃ s cur dep, dictGet acc s = some cur ∧
      ¬((cur.length : Int) ≥ limit ∧ limit > 0) ∧
      r = dictInsert acc s (cur ++ [dep]) := by
  unfold processVisit at h
  cases hmref : pyGet visit kMonitoringRef with
  | error e => rw [hmref] at h; exact Except.noConfusion h
  | ok mref =>
      rw [hmref] at h
      try dsimp only at h
      by_cases hfal : pyFalsy (textOrSelf mref) = true
      · rw [if_pos hfal] at h
        exact Or.inl (Except.ok.inj h).symm
      · rw [if_neg hfal] at h
        cases hsid : textOrSelf mref with
        | null => rw [hsid] at h; exact Or.inl (Except.ok.inj h).symm
        | arr l => rw [hsid] at h; exact Except.noConfusion h
        | obj fs => rw [hsid] at h; exact Except.noConfusion h
        | str s =>
            rw [hsid] at h
            try dsimp only at h
            cases hcur : dictGet acc s with
            | none => rw [hcur] at h; exact Or.inl (Except.ok.inj h).symm
            | some cur =>
                rw [hcur] at h
                try dsimp only at h
                by_cases hcap : (cur.length : Int) ≥ limit ∧ limit > 0
                · rw [if_pos hcap] at h
                  exact Or.inl (Except.ok.inj h).symm
                · rw [if_neg hcap] at h
                  cases hj : pyGet visit kMonitoredVehicleJourney with
                  | error e => rw [hj] at h; exact Except.noConfusion h
                  | ok journey =>
                      rw [hj] at h
                      try dsimp only at h
                      by_cases hjf : pyFalsy journey = true
                      · rw [if_pos hjf] at h
                        exact Or.inl (Except.ok.inj h).symm
                      · rw [if_neg hjf] at h
                        cases hex : extractDeparture repo journey with
                        | error e => rw [hex] at h; exact Except.noConfusion h
                        | ok od =>
                            rw [hex] at h
                            try dsimp only at h
                            cases od with
                            | none => exact Or.inl (Except.ok.inj h).symm
                            | some dep =>
                                exact Or.inr
                                  ⟨s, cur, dep, hcur, hcap, (Except.ok.inj h).symm⟩

theorem processVisit_keys (limit : Int) (repo : List (String × LineRec))
    (acc : List (String × List Departure)) (visit : XVal)
    (r : List (String × List Departure))
    (h : processVisit limit repo acc visit = .ok r) :
    dictKeys r = dictKeys acc := by
  rcases processVisit_ok_cases limit repo acc visit r h with
    h1 | ⟨s, cur, dep, hcur, _, hr⟩
  · rw [h1]
  · rw [hr]
    exact dictKeys_insert_mem acc s _ (dictGet_mem_keys acc s cur hcur)

theorem foldVisits_inv (limit : Int) (repo : List (String × LineRec))
    (P : List (String × List Departure) → Prop)
    (hstep : ∀ b v b', P b → processVisit limit repo b v = .ok b' → P b') :
    ∀ (l : List XVal) (b b'), P b → foldVisits limit repo b l = .ok b' → P b' := by
  intro l
  induction l with
  | nil =>
      intro b b' hb h
      unfold foldVisits at h
      exact (Except.ok.inj h) ▸ hb
  | cons v t ih =>
      intro b b' hb h
      unfold foldVisits at h
      cases hv : processVisit limit repo b v with
      | error e => rw [hv] at h; exact Except.noConfusion h
      | ok b1 =>
          rw [hv] at h
          exact ih b1 b' (hstep b v b1 hb hv) h

/-! ### The initial grouping -/

theorem mem_keys_insert (d : List (String × α)) (k k' : String) (v : α) :
    k' ∈ dictKeys (dictInsert d k v) ↔ k' ∈ dictKeys d ∨ k' = k := by
  induction d with
  | nil => simp [dictInsert, dictKeys]
  | cons hd tl ih =>
      obtain ⟨k₀, v₀⟩ := hd
      by_cases h0 : k₀ = k
      · subst h0
        have he : dictInsert ((k₀, v₀) :: tl) k₀ v = (k₀, v) :: tl := by
          simp [dictInsert]
        rw [he]
        simp only [dictKeys, List.map_cons, List.mem_cons]
        tauto
      · have he : dictInsert ((k₀, v₀) :: tl) k v
            = (k₀, v₀) :: dictInsert tl k v := by
          simp only [dictInsert]
          rw [if_neg h0]
        rw [he]
        simp only [dictKeys, List.map_cons, List.mem_cons] at ih ⊢
        rw [ih]
        tauto

theorem initDepartures_keys_aux (ids : List String)
    (d : List (String × List Departure)) (k : String) :
    k ∈ dictKeys (ids.foldl (fun d k => dictInsert d k ([] : List Departure)) d)
      ↔ k ∈ dictKeys d ∨ k ∈ ids := by
  induction ids generalizing d with
  | nil => simp
  | cons j rest ih =>
      simp only [List.foldl_cons, List.mem_cons]
      rw [ih, mem_keys_insert]
      tauto

theorem initDepartures_keys (ids : List String) (k : String) :
    k ∈ dictKeys (initDepartures ids) ↔ k ∈ ids := by
  unfold initDepartures
  rw [initDepartures_keys_aux]
  simp [dictKeys]

theorem initDepartures_values_aux (ids : List String)
    (d : List (String × List Departure)) (k : String) (l : List Departure)
    (hd : ∀ k l, dictGet d k = some l → l = [])
    (h : dictGet (ids.foldl (fun d k => dictInsert d k ([] : List Departure)) d) k
          = some l) : l = [] := by
  induction ids generalizing d with
  | nil => exact hd k l h
  | cons j rest ih =>
      simp only [List.foldl_cons] at h
      refine ih _ ?_ h
      intro k' l' hk'
      by_cases hkj : k' = j
      · subst hkj
        rw [dictGet_insert_self] at hk'
        injection hk' with hk'
        exact hk'.symm
      · rw [dictGet_insert_ne _ _ _ _ hkj] at hk'
        exact hd k' l' hk'

theorem initDepartures_values (ids : List String) (k : String) (l : List Departure)
    (h : dictGet (initDepartures ids) k = some l) : l = [] :=
  initDepartures_values_aux ids [] k l (by intro k' l' h'; simp [dictGet] at h') h

/-! ### Structure of a successful document processing -/

theorem processFromSD_some (stop_ids : List String) (limit : Int)
    (repo : List (String × LineRec)) (sd : XVal)
    (m : List (String × List Departure))
    (h : processFromSD stop_ids limit repo sd = .ok (some m)) :
    m = [] ∨ ∃ visits : List XVal,
      foldVisits limit repo (initDepartures stop_ids) visits = .ok m := by
  unfold processFromSD at h
  cases h6 : pyGet sd kStopMonitoringDelivery with
  | error e => rw [h6] at h; exact Except.noConfusion h
  | ok smd0 =>
    rw [h6] at h
    try dsimp only at h
    by_cases h7 : pyFalsy smd0 = true
    · rw [if_pos h7] at h
      exact Or.inl (Option.some.inj (Except.ok.inj h)).symm
    · rw [if_neg h7] at h
      cases h8 : headIfList smd0 with
      | error e => rw [h8] at h; exact Except.noConfusion h
      | ok smd =>
        rw [h8] at h
        try dsimp only at h
        cases h9 : pyGetD smd kMonitoredStopVisit (.arr []) with
        | error e => rw [h9] at h; exact Except.noConfusion h
        | ok visitsVal =>
          rw [h9] at h
          try dsimp only at h
          cases h10 : iterItems visitsVal with
          | error e => rw [h10] at h; exact Except.noConfusion h
          | ok visits =>
            rw [h10] at h
            try dsimp only at h
            cases h11 : foldVisits limit repo (initDepartures stop_ids)
                visits with
            | error e => rw [h11] at h; exact Except.noConfusion h
            | ok final =>
              rw [h11] at h
              have hfm : final = m :=
                Option.some.inj (Except.ok.inj h)
              exact Or.inr ⟨visits, by rw [h11, hfm]⟩

theorem processDoc_some (stop_ids : List String) (limit : Int)
    (repo : List (String × LineRec)) (doc : XVal)
    (m : List (String × List Departure))
    (h : processDoc stop_ids limit repo doc = .ok (some m)) :
    m = [] ∨ ∃ visits : List XVal,
      foldVisits limit repo (initDepartures stop_ids) visits = .ok m := by
  unfold processDoc at h
  cases h1 : pyGet doc kSiri with
  | error e => rw [h1] at h; exact Except.noConfusion h
  | ok siri =>
    rw [h1] at h
    try dsimp only at h
    by_cases h2 : pyFalsy siri = true
    · rw [if_pos h2] at h
      exact Option.noConfusion (Except.ok.inj h)
    · rw [if_neg h2] at h
      cases h3 : pyGet siri kServiceDelivery with
      | error e => rw [h3] at h; exact Except.noConfusion h
      | ok sd0 =>
        rw [h3] at h
        try dsimp only at h
        by_cases h4 : pyFalsy sd0 = true
        · rw [if_pos h4] at h
          exact Option.noConfusion (Except.ok.inj h)
        · rw [if_neg h4] at h
          cases h5 : headIfList sd0 with
          | error e => rw [h5] at h; exact Except.noConfusion h
          | ok sd =>
            rw [h5] at h
            exact processFromSD_some stop_ids limit repo sd m h

/-! ### Concrete documents used in counterexamples and witnesses -/

/-- A parsed response with envelope, service delivery, stop-monitoring
delivery and the given visit list. -/
def siriDocWithVisits (visits : List XVal) : XVal :=
  .obj [(kSiri, .obj [(kServiceDelivery, .obj [(kStopMonitoringDelivery,
      .obj [(kMonitoredStopVisit, .arr visits)])])])]

/-- A parsed response whose service delivery carries no stop-monitoring
delivery section. -/
def siriNoSMDDoc : XVal :=
  .obj [(kSiri, .obj [(kServiceDelivery, .obj [("x", .str "y")])])]

/-- A parsed response whose ServiceDelivery element is a bare text node:
present and truthy, but `.get` on it raises `AttributeError`. -/
def siriTextSDDoc : XVal :=
  .obj [(kSiri, .obj [(kServiceDelivery, .str "x")])]

/-- A complete well-formed visit for stop "S1". -/
def sampleVisitFields : List (String × XVal) :=
  [(kMonitoringRef, .str "S1"),
   (kMonitoredVehicleJourney, .obj
      [(kLineRef, .str "L1"),
       (kDestinationName, .str "Centre"),
       (kMonitoredCall, .obj
          [(kExpectedDepartureTime, .str "2025-01-01T10:00:00"),
           (kAimedDepartureTime, .str "2025-01-01T09:58:00"),
           (kVehicleAtStop, .str "true")]),
       (kPublishedLineName, .str "1"),
       (kVehicleMode, .str "bus")])]

def sampleVisit : XVal := .obj sampleVisitFields

/-- The departure the sample visit produces (no enrichment). -/
def sampleDep : Departure :=
  { line_ref := .str "L1", published_line_name := .str "1",
    destination_name := .str "Centre",
    expected_departure_time := .str "2025-01-01T10:00:00",
    aimed_departure_time := .str "2025-01-01T09:58:00",
    vehicle_mode := .str "bus", vehicle_at_stop := some true }

/-! ### C1: key set of the returned grouping -/

/-- C1 counterexample: a response whose service delivery lacks the
stop-monitoring-delivery section makes the call return the *empty* mapping —
the requested stop "S1" is not a key, so the result does not map each
requested stop to an empty sequence. -/
theorem departures_key_set_counterexample :
    get_departures_for_stops ["S1"] 5 [] (.parsed siriNoSMDDoc) = some [] ∧
    "S1" ∉ dictKeys ([] : List (String × List Departure)) := by
  exact ⟨rfl, by simp [dictKeys]⟩

/-- C1 amended: whenever `get_departures_for_stops` returns a mapping, either
the mapping is empty (no stops requested, or the stop-monitoring-delivery
section was absent) or its key set equals exactly the requested stop-id set.
-/
theorem departures_key_set (stop_ids : List String) (limit : Int)
    (repo : List (String × LineRec)) (fetch : FetchResult)
    (m : List (String × List Departure))
    (h : get_departures_for_stops stop_ids limit repo fetch = some m) :
    m = [] ∨ (∀ k, k ∈ dictKeys m ↔ k ∈ stop_ids) := by
  unfold get_departures_for_stops at h
  by_cases hids : stop_ids = []
  · rw [if_pos hids] at h
    exact Or.inl (Option.some.inj h).symm
  · rw [if_neg hids] at h
    cases fetch with
    | transportError => exact Option.noConfusion h
    | parseError => exact Option.noConfusion h
    | parsed doc =>
        try dsimp only at h
        cases hp : processDoc stop_ids limit repo doc with
        | error e =>
            rw [hp] at h
            exact Option.noConfusion h
        | ok r =>
            rw [hp] at h
            try dsimp only at h
            have hp2 : processDoc stop_ids limit repo doc = .ok (some m) := by
              rw [hp, h]
            rcases processDoc_some stop_ids limit repo doc m hp2 with
              hm | ⟨visits, hfold⟩
            · exact Or.inl hm
            · right
              intro k
              have hkeys : dictKeys m = dictKeys (initDepartures stop_ids) :=
                foldVisits_inv limit repo
                  (fun b => dictKeys b = dictKeys (initDepartures stop_ids))
                  (fun b v b2 hb hok =>
                    (processVisit_keys limit repo b v b2 hok).trans hb)
                  visits _ _ rfl hfold
              rw [hkeys, initDepartures_keys]

/-- Witness: with the delivery section present (and zero visits), the key set
of the returned mapping is exactly the requested stop-id set. -/
theorem departures_key_set_witness :
    [("S1", ([] : List Departure))] = [] ∨
      (∀ k, k ∈ dictKeys [("S1", ([] : List Departure))] ↔ k ∈ ["S1"]) :=
  departures_key_set ["S1"] 5 [] (.parsed (siriDocWithVisits []))
    [("S1", [])] rfl

/-! ### C7: per-stop cap when the limit is positive -/

/-- C7: whenever the configured per-stop limit is positive and the call
returns a mapping, no stop's departure sequence is longer than the limit. -/
theorem departures_per_stop_limit (stop_ids : List String) (limit : Int)
    (repo : List (String × LineRec)) (fetch : FetchResult)
    (m : List (String × List Departure)) (k : String) (l : List Departure)
    (h : get_departures_for_stops stop_ids limit repo fetch = some m)
    (hpos : 0 < limit)
    (hk : dictGet m k = some l) :
    (l.length : Int) ≤ limit := by
  unfold get_departures_for_stops at h
  by_cases hids : stop_ids = []
  · rw [if_pos hids] at h
    have hm : m = [] := (Option.some.inj h).symm
    rw [hm] at hk
    exact Option.noConfusion hk
  · rw [if_neg hids] at h
    cases fetch with
    | transportError => exact Option.noConfusion h
    | parseError => exact Option.noConfusion h
    | parsed doc =>
        try dsimp only at h
        cases hp : processDoc stop_ids limit repo doc with
        | error e =>
            rw [hp] at h
            exact Option.noConfusion h
        | ok r =>
            rw [hp] at h
            try dsimp only at h
            have hp2 : processDoc stop_ids limit repo doc = .ok (some m) := by
              rw [hp, h]
            rcases processDoc_some stop_ids limit repo doc m hp2 with
              hm | ⟨visits, hfold⟩
            · rw [hm] at hk
              exact Option.noConfusion hk
            · have hinv :
                  ∀ k2 l2, dictGet m k2 = some l2 → (l2.length : Int) ≤ limit := by
                refine foldVisits_inv limit repo
                  (fun b => ∀ k2 l2, dictGet b k2 = some l2 →
                    (l2.length : Int) ≤ limit)
                  ?_ visits _ _ ?_ hfold
                · intro b v b2 hb hok
                  rcases processVisit_ok_cases limit repo b v b2 hok with
                    h1 | ⟨s, cur, dep, hcur, hcap, hr⟩
                  · rw [h1]; exact hb
                  · rw [hr]
                    intro k2 l2 hk2
                    by_cases hks : k2 = s
                    · subst hks
                      rw [dictGet_insert_self] at hk2
                      have hl2 : l2 = cur ++ [dep] := (Option.some.inj hk2).symm
                      have hlen : ¬((cur.length : Int) ≥ limit) := by
                        intro hge
                        exact hcap ⟨hge, hpos⟩
                      rw [hl2]
                      simp only [List.length_append, List.length_cons,
                        List.length_nil]
                      push_cast
                      omega
                    · rw [dictGet_insert_ne _ _ _ _ hks] at hk2
                      exact hb k2 l2 hk2
                · intro k2 l2 hk2
                  have : l2 = [] := initDepartures_values stop_ids k2 l2 hk2
                  rw [this]
                  simp only [List.length_nil, Nat.cast_zero]
                  omega
              exact hinv k l hk

/-- Witness: limit 1 with two identical matching visits — the second visit is
skipped by the client-side cap and the stop's sequence has length 1 ≤ 1. -/
theorem departures_per_stop_limit_witness :
    (([sampleDep].length : Int)) ≤ 1 :=
  departures_per_stop_limit ["S1"] 1 []
    (.parsed (siriDocWithVisits [sampleVisit, sampleVisit]))
    [("S1", [sampleDep])] "S1" [sampleDep] rfl (by decide) rfl

/-! ### C10: visits without a journey or call are skipped silently -/

/-- C10: a visit whose MonitoringRef matches a requested stop but whose
`MonitoredVehicleJourney` is absent/falsy, or whose journey is an element
mapping with an absent/falsy `MonitoredCall`, leaves the grouping unchanged
(so it contributes no departure and does not count toward the per-stop
limit) and the step succeeds. -/
theorem visit_missing_journey_or_call_skipped (limit : Int)
    (repo : List (String × LineRec)) (acc : List (String × List Departure))
    (fs : List (String × XVal)) (s : String) (cur : List Departure)
    (hs : textOrSelf (xLook fs kMonitoringRef) = .str s)
    (hne : s ≠ "")
    (hcur : dictGet acc s = some cur)
    (hmiss : pyFalsy (xLook fs kMonitoredVehicleJourney) = true ∨
       ∃ gs, xLook fs kMonitoredVehicleJourney = .obj gs ∧
             pyFalsy (xLook gs kMonitoredCall) = true) :
    processVisit limit repo acc (.obj fs) = .ok acc := by
  unfold processVisit
  have hg : pyGet (XVal.obj fs) kMonitoringRef = .ok (xLook fs kMonitoringRef) :=
    rfl
  rw [hg]
  try dsimp only
  rw [hs]
  rw [if_neg (show ¬pyFalsy (XVal.str s) = true by simp [pyFalsy, hne])]
  try dsimp only
  rw [hcur]
  try dsimp only
  by_cases hcap : ((cur.length : Int) ≥ limit ∧ limit > 0)
  · rw [if_pos hcap]
  · rw [if_neg hcap]
    have hgj : pyGet (XVal.obj fs) kMonitoredVehicleJourney
        = .ok (xLook fs kMonitoredVehicleJourney) := rfl
    rw [hgj]
    try dsimp only
    rcases hmiss with hjf | ⟨gs, hgs, hcall⟩
    · rw [hjf, if_pos rfl]
    · by_cases hjf : pyFalsy (xLook fs kMonitoredVehicleJourney) = true
      · rw [hjf, if_pos rfl]
      · rw [if_neg hjf]
        have hex : extractDeparture repo (xLook fs kMonitoredVehicleJourney)
            = .ok none := by
          rw [hgs]
          unfold extractDeparture
          have h1 : pyGet (XVal.obj gs) kLineRef = .ok (xLook gs kLineRef) := rfl
          have h2 : pyGet (XVal.obj gs) kDestinationName
              = .ok (xLook gs kDestinationName) := rfl
          have h3 : pyGet (XVal.obj gs) kMonitoredCall
              = .ok (xLook gs kMonitoredCall) := rfl
          rw [h1]
          try dsimp only
          rw [h2]
          try dsimp only
          rw [h3]
          try dsimp only
          rw [hcall, if_pos rfl]
        rw [hex]

/-- Witness for C10: a visit for the requested stop "S1" carrying no
`MonitoredVehicleJourney` leaves the grouping untouched. -/
theorem visit_missing_journey_or_call_skipped_witness :
    processVisit 5 [] [("S1", [])]
        (.obj [(kMonitoringRef, .str "S1")]) = .ok [("S1", [])] :=
  visit_missing_journey_or_call_skipped 5 [] [("S1", [])]
    [(kMonitoringRef, .str "S1")] "S1" [] rfl (by decide) rfl
    (Or.inl rfl)

/-! ### C9: the cap is disabled for a non-positive limit -/

/-- C9: when `limit_per_stop ≤ 0` the client-side cap never fires — a visit
matching requested stop `s` whose journey extracts a departure `d` is always
appended to `s`'s sequence, whatever length that sequence already has. -/
theorem no_cap_when_limit_nonpositive (limit : Int)
    (repo : List (String × LineRec)) (acc : List (String × List Departure))
    (fs : List (String × XVal)) (s : String) (cur : List Departure)
    (d : Departure)
    (hlim : limit ≤ 0)
    (hs : textOrSelf (xLook fs kMonitoringRef) = .str s)
    (hne : s ≠ "")
    (hcur : dictGet acc s = some cur)
    (hj : pyFalsy (xLook fs kMonitoredVehicleJourney) = false)
    (hd : extractDeparture repo (xLook fs kMonitoredVehicleJourney)
        = .ok (some d)) :
    processVisit limit repo acc (.obj fs)
      = .ok (dictInsert acc s (cur ++ [d])) := by
  unfold processVisit
  have hg : pyGet (XVal.obj fs) kMonitoringRef = .ok (xLook fs kMonitoringRef) :=
    rfl
  rw [hg]
  try dsimp only
  rw [hs]
  rw [if_neg (show ¬pyFalsy (XVal.str s) = true by simp [pyFalsy, hne])]
  try dsimp only
  rw [hcur]
  try dsimp only
  have hcap : ¬((cur.length : Int) ≥ limit ∧ limit > 0) := by
    intro hc
    omega
  rw [if_neg hcap]
  have hgj : pyGet (XVal.obj fs) kMonitoredVehicleJourney
      = .ok (xLook fs kMonitoredVehicleJourney) := rfl
  rw [hgj]
  try dsimp only
  rw [if_neg (show ¬pyFalsy (xLook fs kMonitoredVehicleJourney) = true by
    rw [hj]; exact Bool.false_ne_true)]
  rw [hd]

/-- Witness for C9: with limit 0 and three departures already accumulated for
"S1", a fourth matching visit is still appended. -/
theorem no_cap_when_limit_nonpositive_witness :
    processVisit 0 [] [("S1", [sampleDep, sampleDep, sampleDep])] sampleVisit
      = .ok [("S1", [sampleDep, sampleDep, sampleDep, sampleDep])] := by
  have h := no_cap_when_limit_nonpositive 0 []
    [("S1", [sampleDep, sampleDep, sampleDep])] sampleVisitFields "S1"
    [sampleDep, sampleDep, sampleDep] sampleDep
    (by decide) rfl (by decide) rfl rfl rfl
  exact h

/-! ### C4: the failure sentinel

A decidable well-shapedness predicate on parsed responses, read off the
access patterns of the source: it holds exactly of documents on which the
client reaches the visit loop (or the empty-grouping return) without raising
and without a protocol error. -/

/-- The line-reference shapes that cannot raise in the enrichment lookup
(utils.py lines 728-729): enrichment is skipped when the repository is empty
or the reference is falsy, and a truthy reference must be a string to be
hashable. -/
def lrShapeOK (repo : List (String × LineRec)) (lr : XVal) : Bool :=
  repo.isEmpty ||
    (match lr with
     | .str _ => true
     | .null => true
     | .obj fs => fs.isEmpty
     | .arr l => l.isEmpty)

/-- The shapes of a truthy `MonitoredCall` on which the call-field lookups
cannot raise: a mapping, or a non-empty list whose head is a mapping. -/
def callShapeOK (c : XVal) : Bool :=
  match c with
  | .obj _ => true
  | .arr (XVal.obj _ :: _) => true
  | _ => false

/-- A journey value the visit loop can process without raising. -/
def wsJourney (repo : List (String × LineRec)) (j : XVal) : Bool :=
  pyFalsy j ||
    (match j with
     | .obj gs =>
         (if pyFalsy (xLook gs kMonitoredCall) then true
          else callShapeOK (xLook gs kMonitoredCall))
         && lrShapeOK repo (textOrSelf (xLook gs kLineRef))
     | _ => false)

/-- A visit record the loop can process without raising. -/
def wsVisit (repo : List (String × LineRec)) (v : XVal) : Bool :=
  match v with
  | .obj fs =>
      (match textOrSelf (xLook fs kMonitoringRef) with
       | .null => true
       | .str s => s == "" || wsJourney repo (xLook fs kMonitoredVehicleJourney)
       | _ => false)
  | _ => false

/-- A well-shaped stop-monitoring-delivery element (after list
normalization). -/
def wsSMD (repo : List (String × LineRec)) (smd : XVal) : Bool :=
  match smd with
  | .obj ms =>
      (match dictGet ms kMonitoredStopVisit with
       | none => true
       | some vv =>
           match vv with
           | .arr l => l.all (wsVisit repo)
           | .obj fs2 => fs2.isEmpty
           | .str s => s == ""
           | .null => false)
  | _ => false

/-- A well-shaped service-delivery element (after list normalization). -/
def wsSD (repo : List (String × LineRec)) (sd : XVal) : Bool :=
  match sd with
  | .obj hs =>
      (match xLook hs kStopMonitoringDelivery with
       | .null => true
       | .str s => s == ""
       | .obj ms => ms.isEmpty || wsSMD repo (.obj ms)
       | .arr [] => true
       | .arr (x :: _) => wsSMD repo x)
  | _ => false

/-- A well-shaped parsed response: truthy envelope and truthy service
delivery of processable shape. -/
def wsDoc (repo : List (String × LineRec)) (doc : XVal) : Bool :=
  match doc with
  | .obj fs =>
      (match xLook fs kSiri with
       | .obj gs =>
           !gs.isEmpty &&
           (match xLook gs kServiceDelivery with
            | .obj hs => !hs.isEmpty && wsSD repo (.obj hs)
            | .arr (x :: _) => wsSD repo x
            | _ => false)
       | _ => false)
  | _ => false

theorem extractDeparture_ok (repo : List (String × LineRec))
    (gs : List (String × XVal))
    (hcall : pyFalsy (xLook gs kMonitoredCall) = true ∨
        callShapeOK (xLook gs kMonitoredCall) = true)
    (hlr : lrShapeOK repo (textOrSelf (xLook gs kLineRef)) = true) :
    ∃ od, extractDeparture repo (.obj gs) = .ok od := by
  unfold extractDeparture
  have h1 : pyGet (XVal.obj gs) kLineRef = .ok (xLook gs kLineRef) := rfl
  have h2 : pyGet (XVal.obj gs) kDestinationName
      = .ok (xLook gs kDestinationName) := rfl
  have h3 : pyGet (XVal.obj gs) kMonitoredCall
      = .ok (xLook gs kMonitoredCall) := rfl
  rw [h1]
  try dsimp only
  rw [h2]
  try dsimp only
  rw [h3]
  try dsimp only
  by_cases hf : pyFalsy (xLook gs kMonitoredCall) = true
  · rw [if_pos hf]
    exact ⟨none, rfl⟩
  · rw [if_neg hf]
    have hcs : callShapeOK (xLook gs kMonitoredCall) = true := by
      rcases hcall with hc | hc
      · exact absurd hc hf
      · exact hc
    have hcallobj : ∃ call, headIfList (xLook gs kMonitoredCall) = .ok call ∧
        ∃ cs, call = XVal.obj cs := by
      unfold callShapeOK at hcs
      cases hc : xLook gs kMonitoredCall with
      | obj cs => exact ⟨.obj cs, rfl, cs, rfl⟩
      | arr l =>
          rw [hc] at hcs
          cases l with
          | nil => exact absurd hcs (by simp)
          | cons x t =>
              cases x with
              | obj cs => exact ⟨.obj cs, rfl, cs, rfl⟩
              | null => exact absurd hcs (by simp)
              | str s2 => exact absurd hcs (by simp)
              | arr l2 => exact absurd hcs (by simp)
      | null => rw [hc] at hcs; exact absurd hcs (by simp)
      | str s2 => rw [hc] at hcs; exact absurd hcs (by simp)
    obtain ⟨call, hhead, cs, hcs2⟩ := hcallobj
    rw [hhead]
    try dsimp only
    subst hcs2
    have h4 : pyGet (XVal.obj cs) kExpectedDepartureTime
        = .ok (xLook cs kExpectedDepartureTime) := rfl
    have h5 : pyGet (XVal.obj cs) kAimedDepartureTime
        = .ok (xLook cs kAimedDepartureTime) := rfl
    have h6 : pyGet (XVal.obj cs) kVehicleAtStop
        = .ok (xLook cs kVehicleAtStop) := rfl
    have h7 : pyGet (XVal.obj gs) kPublishedLineName
        = .ok (xLook gs kPublishedLineName) := rfl
    have h8 : pyGet (XVal.obj gs) kVehicleMode
        = .ok (xLook gs kVehicleMode) := rfl
    rw [h4]
    try dsimp only
    rw [h5]
    try dsimp only
    rw [h6]
    try dsimp only
    rw [h7]
    try dsimp only
    rw [h8]
    try dsimp only
    by_cases hen : repo ≠ [] ∧ ¬pyFalsy (textOrSelf (xLook gs kLineRef)) = true
    · rw [if_pos hen]
      unfold lrShapeOK at hlr
      have hrepo : repo.isEmpty = false := by
        cases repo with
        | nil => exact absurd rfl hen.1
        | cons a b => rfl
      rw [hrepo] at hlr
      simp only [Bool.false_or] at hlr
      cases hl : textOrSelf (xLook gs kLineRef) with
      | str lr => exact ⟨_, rfl⟩
      | null => rw [hl] at hen; exact absurd rfl hen.2
      | obj fs2 =>
          rw [hl] at hlr hen
          have : fs2 = [] := by
            cases fs2 with
            | nil => rfl
            | cons a b => exact absurd hlr (by simp)
          rw [this] at hen
          exact absurd rfl hen.2
      | arr l2 =>
          rw [hl] at hlr hen
          have : l2 = [] := by
            cases l2 with
            | nil => rfl
            | cons a b => exact absurd hlr (by simp)
          rw [this] at hen
          exact absurd rfl hen.2
    · rw [if_neg hen]
      exact ⟨_, rfl⟩

theorem wsVisit_processVisit_ok (limit : Int) (repo : List (String × LineRec))
    (acc : List (String × List Departure)) (v : XVal)
    (h : wsVisit repo v = true) :
    ∃ r, processVisit limit repo acc v = .ok r := by
  unfold wsVisit at h
  cases v with
  | null => exact absurd h (by simp)
  | str s => exact absurd h (by simp)
  | arr l => exact absurd h (by simp)
  | obj fs =>
      try dsimp only at h
      unfold processVisit
      have hg : pyGet (XVal.obj fs) kMonitoringRef
          = .ok (xLook fs kMonitoringRef) := rfl
      rw [hg]
      try dsimp only
      cases hsid : textOrSelf (xLook fs kMonitoringRef) with
      | null => exact ⟨acc, rfl⟩
      | obj fs2 => rw [hsid] at h; exact absurd h (by simp)
      | arr l2 => rw [hsid] at h; exact absurd h (by simp)
      | str s =>
          rw [hsid] at h
          by_cases hse : s = ""
          · subst hse
            exact ⟨acc, rfl⟩
          · have hws : wsJourney repo (xLook fs kMonitoredVehicleJourney)
                = true := by
              rcases (by simpa using h :
                  s = "" ∨ wsJourney repo (xLook fs kMonitoredVehicleJourney)
                    = true) with h1 | h1
              · exact absurd h1 hse
              · exact h1
            rw [if_neg (show ¬pyFalsy (XVal.str s) = true by
              simp [pyFalsy, hse])]
            try dsimp only
            cases hcur : dictGet acc s with
            | none => exact ⟨acc, rfl⟩
            | some cur =>
                try dsimp only
                by_cases hcap : ((cur.length : Int) ≥ limit ∧ limit > 0)
                · exact ⟨acc, by rw [if_pos hcap]⟩
                · rw [if_neg hcap]
                  have hgj : pyGet (XVal.obj fs) kMonitoredVehicleJourney
                      = .ok (xLook fs kMonitoredVehicleJourney) := rfl
                  rw [hgj]
                  try dsimp only
                  by_cases hjf : pyFalsy (xLook fs kMonitoredVehicleJourney)
                      = true
                  · exact ⟨acc, by rw [if_pos hjf]⟩
                  · rw [if_neg hjf]
                    unfold wsJourney at hws
                    rw [Bool.or_eq_true] at hws
                    rcases hws with hws | hws
                    · exact absurd hws hjf
                    · cases hj : xLook fs kMonitoredVehicleJourney with
                      | null => rw [hj] at hws; exact absurd hws (by simp)
                      | str s2 => rw [hj] at hws; exact absurd hws (by simp)
                      | arr l2 => rw [hj] at hws; exact absurd hws (by simp)
                      | obj gs =>
                          rw [hj] at hws
                          simp only [Bool.and_eq_true] at hws
                          obtain ⟨hwc, hwl⟩ := hws
                          have hcall : pyFalsy (xLook gs kMonitoredCall) = true ∨
                              callShapeOK (xLook gs kMonitoredCall) = true := by
                            by_cases hcf : pyFalsy (xLook gs kMonitoredCall)
                                = true
                            · exact Or.inl hcf
                            · rw [if_neg hcf] at hwc
                              exact Or.inr hwc
                          obtain ⟨od, hod⟩ :=
                            extractDeparture_ok repo gs hcall hwl
                          rw [hod]
                          cases od with
                          | none => exact ⟨acc, rfl⟩
                          | some dep => exact ⟨_, rfl⟩

theorem wsVisits_foldVisits_ok (limit : Int) (repo : List (String × LineRec))
    (l : List XVal) (hl : ∀ v ∈ l, wsVisit repo v = true) :
    ∀ acc, ∃ r, foldVisits limit repo acc l = .ok r := by
  induction l with
  | nil => intro acc; exact ⟨acc, rfl⟩
  | cons v t ih =>
      intro acc
      obtain ⟨r1, hr1⟩ :=
        wsVisit_processVisit_ok limit repo acc v (hl v (by simp))
      obtain ⟨r2, hr2⟩ := ih (fun w hw => hl w (by simp [hw])) r1
      refine ⟨r2, ?_⟩
      unfold foldVisits
      rw [hr1]
      exact hr2

theorem wsSMD_visits (repo : List (String × LineRec))
    (ms : List (String × XVal)) (h : wsSMD repo (.obj ms) = true) :
    ∃ vv visits, pyGetD (.obj ms) kMonitoredStopVisit (.arr []) = .ok vv ∧
      iterItems vv = .ok visits ∧ ∀ v ∈ visits, wsVisit repo v = true := by
  unfold wsSMD at h
  try dsimp only at h
  cases hms : dictGet ms kMonitoredStopVisit with
  | none =>
      refine ⟨.arr [], [], ?_, rfl, by simp⟩
      unfold pyGetD
      try dsimp only
      rw [hms]
  | some vv =>
      rw [hms] at h
      have hget : pyGetD (.obj ms) kMonitoredStopVisit (.arr []) = .ok vv := by
        unfold pyGetD
        try dsimp only
        rw [hms]
      cases vv with
      | arr l =>
          refine ⟨.arr l, l, hget, rfl, ?_⟩
          intro v hv
          exact List.all_eq_true.mp h v hv
      | obj fs2 =>
          have : fs2 = [] := by
            cases fs2 with
            | nil => rfl
            | cons a b => exact absurd h (by simp)
          subst this
          exact ⟨.obj [], [], hget, rfl, by simp⟩
      | str s =>
          have : s = "" := by simpa using h
          subst this
          exact ⟨.str "", [], hget, rfl, by simp⟩
      | null => exact absurd h (by simp)

theorem wsSD_processFromSD_ok (stop_ids : List String) (limit : Int)
    (repo : List (String × LineRec)) (hs : List (String × XVal))
    (h : wsSD repo (.obj hs) = true) :
    ∃ m, processFromSD stop_ids limit repo (.obj hs) = .ok (some m) := by
  unfold wsSD at h
  try dsimp only at h
  unfold processFromSD
  have hg : pyGet (XVal.obj hs) kStopMonitoringDelivery
      = .ok (xLook hs kStopMonitoringDelivery) := rfl
  rw [hg]
  try dsimp only
  have hsmd : (∃ ms, xLook hs kStopMonitoringDelivery = .obj ms ∧ ms ≠ [] ∧
        wsSMD repo (.obj ms) = true) ∨
      (∃ x t, xLook hs kStopMonitoringDelivery = .arr (x :: t) ∧
        wsSMD repo x = true) ∨
      pyFalsy (xLook hs kStopMonitoringDelivery) = true := by
    cases hx : xLook hs kStopMonitoringDelivery with
    | null => exact Or.inr (Or.inr rfl)
    | str s =>
        rw [hx] at h
        have : s = "" := by simpa using h
        subst this
        exact Or.inr (Or.inr rfl)
    | obj ms =>
        rw [hx] at h
        cases ms with
        | nil => exact Or.inr (Or.inr rfl)
        | cons a b =>
            simp only [List.isEmpty_cons, Bool.false_or] at h
            exact Or.inl ⟨a :: b, rfl, by simp, h⟩
    | arr l =>
        rw [hx] at h
        cases l with
        | nil => exact Or.inr (Or.inr rfl)
        | cons x t => exact Or.inr (Or.inl ⟨x, t, rfl, h⟩)
  rcases hsmd with ⟨ms, hx, hne, hws⟩ | ⟨x, t, hx, hws⟩ | hfal
  · rw [hx]
    rw [if_neg (show ¬pyFalsy (XVal.obj ms) = true by
      cases ms with
      | nil => exact absurd rfl hne
      | cons a b => simp [pyFalsy])]
    have hhead : headIfList (XVal.obj ms) = .ok (.obj ms) := rfl
    rw [hhead]
    try dsimp only
    obtain ⟨vv, visits, hget, hiter, hallws⟩ := wsSMD_visits repo ms hws
    rw [hget]
    try dsimp only
    rw [hiter]
    try dsimp only
    obtain ⟨r, hr⟩ := wsVisits_foldVisits_ok limit repo visits hallws
      (initDepartures stop_ids)
    rw [hr]
    exact ⟨r, rfl⟩
  · rw [hx]
    rw [if_neg (show ¬pyFalsy (XVal.arr (x :: t)) = true by simp [pyFalsy])]
    have hhead : headIfList (XVal.arr (x :: t)) = .ok x := rfl
    rw [hhead]
    try dsimp only
    have hxobj : ∃ ms, x = XVal.obj ms := by
      unfold wsSMD at hws
      cases x with
      | obj ms => exact ⟨ms, rfl⟩
      | null => exact absurd hws (by simp)
      | str s => exact absurd hws (by simp)
      | arr l => exact absurd hws (by simp)
    obtain ⟨ms, hxm⟩ := hxobj
    subst hxm
    obtain ⟨vv, visits, hget, hiter, hallws⟩ := wsSMD_visits repo ms hws
    rw [hget]
    try dsimp only
    rw [hiter]
    try dsimp only
    obtain ⟨r, hr⟩ := wsVisits_foldVisits_ok limit repo visits hallws
      (initDepartures stop_ids)
    rw [hr]
    exact ⟨r, rfl⟩
  · rw [if_pos hfal]
    exact ⟨[], rfl⟩

theorem wsDoc_processDoc_ok (stop_ids : List String) (limit : Int)
    (repo : List (String × LineRec)) (doc : XVal)
    (h : wsDoc repo doc = true) :
    ∃ m, processDoc stop_ids limit repo doc = .ok (some m) := by
  unfold wsDoc at h
  cases doc with
  | null => exact absurd h (by simp)
  | str s => exact absurd h (by simp)
  | arr l => exact absurd h (by simp)
  | obj fs =>
      try dsimp only at h
      unfold processDoc
      have hg : pyGet (XVal.obj fs) kSiri = .ok (xLook fs kSiri) := rfl
      rw [hg]
      try dsimp only
      cases hsiri : xLook fs kSiri with
      | null => rw [hsiri] at h; exact absurd h (by simp)
      | str s => rw [hsiri] at h; exact absurd h (by simp)
      | arr l => rw [hsiri] at h; exact absurd h (by simp)
      | obj gs =>
          rw [hsiri] at h
          simp only [Bool.and_eq_true] at h
          obtain ⟨hgs, h⟩ := h
          rw [if_neg (show ¬pyFalsy (XVal.obj gs) = true by
            simp only [pyFalsy]
            simpa using hgs)]
          have hg2 : pyGet (XVal.obj gs) kServiceDelivery
              = .ok (xLook gs kServiceDelivery) := rfl
          rw [hg2]
          try dsimp only
          cases hsd : xLook gs kServiceDelivery with
          | null => rw [hsd] at h; exact absurd h (by simp)
          | str s => rw [hsd] at h; exact absurd h (by simp)
          | obj hs =>
              rw [hsd] at h
              simp only [Bool.and_eq_true] at h
              obtain ⟨hhs, hws⟩ := h
              rw [if_neg (show ¬pyFalsy (XVal.obj hs) = true by
                simp only [pyFalsy]
                simpa using hhs)]
              have hhead : headIfList (XVal.obj hs) = .ok (.obj hs) := rfl
              rw [hhead]
              exact wsSD_processFromSD_ok stop_ids limit repo hs hws
          | arr l =>
              rw [hsd] at h
              cases l with
              | nil => exact absurd h (by simp)
              | cons x t =>
                  rw [if_neg (show ¬pyFalsy (XVal.arr (x :: t)) = true by
                    simp [pyFalsy])]
                  have hhead : headIfList (XVal.arr (x :: t)) = .ok x := rfl
                  rw [hhead]
                  have hxobj : ∃ hs2, x = XVal.obj hs2 := by
                    unfold wsSD at h
                    cases x with
                    | obj hs2 => exact ⟨hs2, rfl⟩
                    | null => exact absurd h (by simp)
                    | str s => exact absurd h (by simp)
                    | arr l2 => exact absurd h (by simp)
                  obtain ⟨hs2, hxm⟩ := hxobj
                  subst hxm
                  exact wsSD_processFromSD_ok stop_ids limit repo hs2 h

/-- C4 counterexample: a transport-successful, well-parsed response that
*contains* a truthy Siri envelope and a truthy ServiceDelivery section — but
whose ServiceDelivery is a bare text node — still yields the failure
sentinel, because `.get` on the text node raises and the blanket handler
returns `None`. -/
theorem departures_failure_sentinel_counterexample :
    get_departures_for_stops ["S1"] 5 [] (.parsed siriTextSDDoc) = none ∧
    pyFalsy (xLook [(kSiri, .obj [(kServiceDelivery, .str "x")])] kSiri)
      = false ∧
    pyFalsy (xLook [(kServiceDelivery, XVal.str "x")] kServiceDelivery)
      = false :=
  ⟨rfl, rfl, rfl⟩

/-- C4 amended: with stops requested, a transport failure or malformed
response XML yields the sentinel; so does a response whose Siri envelope or
ServiceDelivery section is absent or falsy; and a well-shaped response (the
envelope and delivery sections are truthy element mappings of processable
shape, `wsDoc`) never yields the sentinel.  (A structurally ill-shaped
response may also yield the sentinel through the blanket exception handler,
as the counterexample shows.) -/
theorem departures_failure_sentinel (stop_ids : List String) (limit : Int)
    (repo : List (String × LineRec)) :
    (stop_ids ≠ [] →
       get_departures_for_stops stop_ids limit repo .transportError = none) ∧
    (stop_ids ≠ [] →
       get_departures_for_stops stop_ids limit repo .parseError = none) ∧
    (∀ fs, stop_ids ≠ [] → pyFalsy (xLook fs kSiri) = true →
       get_departures_for_stops stop_ids limit repo (.parsed (.obj fs))
         = none) ∧
    (∀ fs gs, stop_ids ≠ [] → xLook fs kSiri = .obj gs →
       pyFalsy (xLook gs kServiceDelivery) = true →
       get_departures_for_stops stop_ids limit repo (.parsed (.obj fs))
         = none) ∧
    (∀ doc, wsDoc repo doc = true →
       get_departures_for_stops stop_ids limit repo (.parsed doc) ≠ none) := by
  refine ⟨?_, ?_, ?_, ?_, ?_⟩
  · intro hne
    unfold get_departures_for_stops
    rw [if_neg hne]
  · intro hne
    unfold get_departures_for_stops
    rw [if_neg hne]
  · intro fs hne hfal
    unfold get_departures_for_stops
    rw [if_neg hne]
    have hp : processDoc stop_ids limit repo (.obj fs) = .ok none := by
      unfold processDoc
      have hg : pyGet (XVal.obj fs) kSiri = .ok (xLook fs kSiri) := rfl
      rw [hg]
      try dsimp only
      rw [if_pos hfal]
    try dsimp only
    rw [hp]
  · intro fs gs hne hsiri hfal
    unfold get_departures_for_stops
    rw [if_neg hne]
    have hp : processDoc stop_ids limit repo (.obj fs) = .ok none := by
      unfold processDoc
      have hg : pyGet (XVal.obj fs) kSiri = .ok (xLook fs kSiri) := rfl
      rw [hg]
      try dsimp only
      rw [hsiri]
      by_cases hfs : pyFalsy (XVal.obj gs) = true
      · rw [if_pos hfs]
      · rw [if_neg hfs]
        have hg2 : pyGet (XVal.obj gs) kServiceDelivery
            = .ok (xLook gs kServiceDelivery) := rfl
        rw [hg2]
        try dsimp only
        rw [if_pos hfal]
    try dsimp only
    rw [hp]
  · intro doc hws
    unfold get_departures_for_stops
    by_cases hne : stop_ids = []
    · rw [if_pos hne]
      exact Option.noConfusion
    · rw [if_neg hne]
      obtain ⟨m, hm⟩ := wsDoc_processDoc_ok stop_ids limit repo doc hws
      try dsimp only
      rw [hm]
      exact Option.noConfusion

/-- Witness: with a stop requested, a transport failure yields the sentinel,
while a well-shaped response (delivery present, zero visits) does not. -/
theorem departures_failure_sentinel_witness :
    get_departures_for_stops ["S1"] 5 [] .transportError = none ∧
    get_departures_for_stops ["S1"] 5 [] (.parsed (siriDocWithVisits []))
      ≠ none := by
  have h := departures_failure_sentinel ["S1"] 5 []
  exact ⟨h.1 (by decide), h.2.2.2.2 (siriDocWithVisits []) (by decide)⟩

end Siri
